import Mathlib

/-!
# MKLDNNPoolingLayer: geometry, engine selection and execution control

A shallow embedding of `src/caffe/layers/mkldnn_pooling_layer.cpp`.

Conventions of the embedding.

* C++ `int` members and locals are 32 bit two's complement values, held in
  `Int`: the conversion of an unsigned configuration field to `int` and every
  `int` sum, difference and product of `LayerSetUp` is reduced modulo
  `2 ^ 32` into the range of `int` (`wrap32`).  For a sum, difference or
  product that leaves the range C++ defines no result; the embedding takes
  the wrapped one, which is what the targets of this code compute.  The blob
  extents are the `int` values that `height()` and `width()` return.
* `static_cast<float>(x) / stride` followed by `ceil` and `static_cast<int>`
  is modelled bit-exactly for IEEE-754 binary32 with round-to-nearest-even
  (24 bit significand); the exponent range is not bounded, which is
  immaterial for quotients of 32 bit integers.
* `CHECK...` and `LOG(FATAL)` abort the process: they are failures of the
  `Except` monad.  Other behaviour that C++ leaves undefined (conversion of
  an infinite, NaN or too large `float` to `int`, dereferencing a null
  pointer, indexing past the end of a vector) is a failure of its own kind.
* The two `while` loops of `LayerSetUp` take an iteration budget (`fuel`);
  running out of it is a failure of its own kind, never a result.
* Collaborators that are not part of the sources (the engine parser, the
  primitive-descriptor constructors of the backend) are parameters.
-/

namespace MKLDNNPoolingLayer

/-! ## Single precision arithmetic -/

/-- Quotient `N / D` rounded to the nearest natural number, ties to even. -/
def divRoundEven (N D : Nat) : Nat :=
  let Q := N / D
  let R := N % D
  if 2 * R < D then Q
  else if D < 2 * R then Q + 1
  else if Q % 2 = 0 then Q else Q + 1

/-- Worker of `floorLog2`: halve until the argument drops below two. -/
def floorLog2Aux : Nat → Nat → Nat
  | 0, _ => 0
  | fuel + 1, n => if 2 ≤ n then floorLog2Aux fuel (n / 2) + 1 else 0

/-- Position of the leading bit of `n` (zero for `n = 0`). -/
def floorLog2 (n : Nat) : Nat := floorLog2Aux n n

/-- Value of `static_cast<float>(a)` for a non-negative integer `a`: the
nearest number with a 24 bit significand, ties to even.  The result is again
an integer. -/
def f32OfNat (a : Nat) : Nat :=
  let e := floorLog2 a - 23
  divRoundEven a (2 ^ e) * 2 ^ e

/-- Single precision quotient of two non-negative integer-valued floats
`A / B` (`B` positive): the pair `(m, e)` stands for the value `m * 2 ^ e`,
the rational `A / B` rounded to a 24 bit significand, ties to even. -/
def f32Quot (A B : Nat) : Nat × Int :=
  if A = 0 then (0, 0) else
  let d : Int := (floorLog2 A : Int) - (floorLog2 B : Int)
  let E : Int := if B * 2 ^ d.toNat ≤ A * 2 ^ (-d).toNat then d else d - 1
  let e : Int := E - 23
  (divRoundEven (A * 2 ^ (-e).toNat) (B * 2 ^ e.toNat), e)

/-- Value of `ceil` at the non-negative float `m * 2 ^ e`. -/
def f32Ceil (x : Nat × Int) : Int :=
  ((x.1 * 2 ^ x.2.toNat + 2 ^ (-x.2).toNat - 1) / 2 ^ (-x.2).toNat : Nat)

/-- Value of `floor` at the non-negative float `m * 2 ^ e`. -/
def f32Floor (x : Nat × Int) : Int :=
  ((x.1 * 2 ^ x.2.toNat) / 2 ^ (-x.2).toNat : Nat)

/-- The expression `static_cast<int>(ceil(static_cast<float>(n) / s))` of
`LayerSetUp` (lines 115-118).  Both operands are converted to `float`, the
quotient is rounded to `float`, `ceil` is exact.  For `s = 0` the quotient is
infinite or NaN and its conversion to `int` is undefined: `none`. -/
def ceilDivF32 (n s : Int) : Option Int :=
  if s = 0 then none else
  let q := f32Quot (f32OfNat n.natAbs) (f32OfNat s.natAbs)
  some (if decide (n < 0) = decide (s < 0) then f32Ceil q else - f32Floor q)

/-! ## Machine integers -/

/-- Value of the 32 bit two's complement `int` that holds the integer `x`:
the representative of `x` modulo `2 ^ 32` between `-2 ^ 31` and
`2 ^ 31 - 1`.  It is the value of converting an unsigned 32 bit field to
`int`, and the result of an `int` operation whose exact result is `x`. -/
def wrap32 (x : Int) : Int := (x + 2147483648) % 4294967296 - 2147483648

/-! ## Configuration and layer state -/

/-- Pooling methods of `PoolingParameter`. -/
inductive PoolMethod
  | MAX
  | AVE
  | STOCHASTIC
  deriving DecidableEq, Repr

/-- The generated accessors of the `PoolingParameter` message that the layer
reads: for every optional field the presence test `has_x` and the value
`x` that the accessor returns (the field default when absent).  The numeric
fields are unsigned 32 bit values. -/
structure PoolingParameter where
  pool : PoolMethod
  global_pooling : Bool
  has_kernel_size : Bool
  kernel_size : Nat
  has_kernel_h : Bool
  kernel_h : Nat
  has_kernel_w : Bool
  kernel_w : Nat
  has_pad : Bool
  pad : Nat
  has_pad_h : Bool
  pad_h : Nat
  has_pad_w : Bool
  pad_w : Nat
  has_stride : Bool
  stride : Nat
  has_stride_h : Bool
  stride_h : Nat
  has_stride_w : Bool
  stride_w : Nat
  deriving DecidableEq, Repr

/-- Physical layout tag of a tensor: the canonical `nchw` or a layout chosen
by the backend. -/
inductive Format
  | nchw
  | blocked (tag : Nat)
  deriving DecidableEq, Repr

/-- What the layer reads of a `Blob`: its four extents (counts, hence
non-negative; the accessors return them as `int`), its number of axes and,
when the blob currently holds data (resp. gradients) in a private layout,
the format of that layout. -/
structure Blob where
  num : Nat
  channels : Nat
  height : Nat
  width : Nat
  num_axes : Nat
  prv_data : Option Format
  prv_diff : Option Format
  deriving DecidableEq, Repr

/-- The `CHECK`s and `LOG(FATAL)`s of the file, named by what they test. -/
inductive Check
  | globalPoolingNoKernel      -- line 62
  | kernelSizeXorKernelHW      -- line 65
  | kernelHWBoth               -- line 67
  | padPresence                -- line 70
  | stridePresence             -- line 73
  | kernelHPositive            -- line 89
  | kernelWPositive            -- line 90
  | globalPoolingPadStride     -- line 104
  | padPoolMethod              -- line 108
  | padHLtKernel               -- line 111
  | padWLtKernel               -- line 112
  | lastPoolingInsideH         -- line 129
  | lastPoolingInsideW         -- line 130
  | fourAxes                   -- line 151
  | poolingFwdPd               -- line 247
  | poolingBwdPd               -- line 386
  deriving DecidableEq, Repr

/-- Ways a member function does not return normally. -/
inductive Failure
  | check (c : Check)          -- a CHECK failed: fatal
  | notImplemented             -- NOT_IMPLEMENTED: fatal
  | undefinedBehaviour         -- the C++ behaviour is undefined
  | outOfFuel                  -- the iteration budget of the embedding ran out
  deriving DecidableEq, Repr

/-- Modelled from the spec: the logging macros `CHECK`, `CHECK_GT`, `CHECK_LT`
and `CHECK_EQ`, whose definitions are not among the sources.  By sections 4.1
and 7 a violated check is a fatal error surfaced at once: `CHECK(cond)`
continues when `cond` holds and aborts otherwise. -/
def CHECK (cond : Prop) [Decidable cond] (c : Check) : Except Failure Unit :=
  if cond then pure () else throw (Failure.check c)

/-- The geometry members of the layer that `LayerSetUp` assigns. -/
structure Geometry where
  global_pooling_ : Bool
  kernel_h_ : Int
  kernel_w_ : Int
  pad_t_ : Int
  pad_b_ : Int
  pad_l_ : Int
  pad_r_ : Int
  stride_h_ : Int
  stride_w_ : Int
  height_out_ : Int
  width_out_ : Int
  deriving DecidableEq, Repr

/-- The loop `while (h + pad < bound) pad++` of lines 134 and 137, on `int`
values.  Every iteration consumes one unit of `fuel`. -/
def growPad : Nat → Int → Int → Int → Except Failure Int
  | fuel, h, pad, bound =>
    if wrap32 (h + pad) < bound then
      match fuel with
      | 0 => throw Failure.outOfFuel
      | fuel + 1 => growPad fuel h (wrap32 (pad + 1)) bound
    else pure pad

/-- The expression `static_cast<int>(ceil(static_cast<float>(n) / s))` as a
step of a member function, for `int` values `n` and `s`: undefined for a zero
divisor, and when the ceiling is not a value of `int`. -/
def ceilDiv (n s : Int) : Except Failure Int :=
  match ceilDivF32 n s with
  | some v =>
    if -2147483648 ≤ v ∧ v < 2147483648 then pure v else throw Failure.undefinedBehaviour
  | none => throw Failure.undefinedBehaviour

/-- The value assigned to the `int` member `kernel_h_` at lines 77-88: the
height of the input under global pooling, the unsigned field converted to
`int` otherwise. -/
def kernelH (pool_param : PoolingParameter) (bottom0 : Blob) : Int :=
  if pool_param.global_pooling then bottom0.height
  else if pool_param.has_kernel_size then wrap32 pool_param.kernel_size
  else wrap32 pool_param.kernel_h

/-- The value assigned to the `int` member `kernel_w_` at lines 77-88. -/
def kernelW (pool_param : PoolingParameter) (bottom0 : Blob) : Int :=
  if pool_param.global_pooling then bottom0.width
  else if pool_param.has_kernel_size then wrap32 pool_param.kernel_size
  else wrap32 pool_param.kernel_w

/-- The value assigned to the `int` members `pad_t_` and `pad_b_` at lines
91-96: the unsigned field converted to `int`. -/
def padH (pool_param : PoolingParameter) : Int :=
  if ¬ pool_param.has_pad_h then wrap32 pool_param.pad else wrap32 pool_param.pad_h

/-- The value assigned to the `int` members `pad_l_` and `pad_r_` at lines
91-96. -/
def padW (pool_param : PoolingParameter) : Int :=
  if ¬ pool_param.has_pad_h then wrap32 pool_param.pad else wrap32 pool_param.pad_w

/-- The value assigned to the `int` member `stride_h_` at lines 97-102: the
unsigned field converted to `int`. -/
def strideH (pool_param : PoolingParameter) : Int :=
  if ¬ pool_param.has_stride_h then wrap32 pool_param.stride else wrap32 pool_param.stride_h

/-- The value assigned to the `int` member `stride_w_` at lines 97-102. -/
def strideW (pool_param : PoolingParameter) : Int :=
  if ¬ pool_param.has_stride_h then wrap32 pool_param.stride else wrap32 pool_param.stride_w

/-- The field-presence `CHECK`s of lines 61-75. -/
def checkFieldPresence (pool_param : PoolingParameter) : Except Failure Unit := do
  if pool_param.global_pooling then
    CHECK (¬ (pool_param.has_kernel_size ∨ pool_param.has_kernel_h ∨ pool_param.has_kernel_w))
      Check.globalPoolingNoKernel
  else do
    CHECK ((!pool_param.has_kernel_size) ≠ (!(pool_param.has_kernel_h && pool_param.has_kernel_w)))
      Check.kernelSizeXorKernelHW
    CHECK (pool_param.has_kernel_size ∨ (pool_param.has_kernel_h ∧ pool_param.has_kernel_w))
      Check.kernelHWBoth
  CHECK ((¬ pool_param.has_pad ∧ pool_param.has_pad_h ∧ pool_param.has_pad_w)
      ∨ (¬ pool_param.has_pad_h ∧ ¬ pool_param.has_pad_w)) Check.padPresence
  CHECK ((¬ pool_param.has_stride ∧ pool_param.has_stride_h ∧ pool_param.has_stride_w)
      ∨ (¬ pool_param.has_stride_h ∧ ¬ pool_param.has_stride_w)) Check.stridePresence

/-- The `CHECK`s on the parameter values, lines 89-90 and 103-113.  (In the
source the two kernel checks precede the assignments of pad and stride, which
cannot fail.) -/
def checkParameters (pool_param : PoolingParameter) (bottom0 : Blob) : Except Failure Unit := do
  CHECK (kernelH pool_param bottom0 > 0) Check.kernelHPositive
  CHECK (kernelW pool_param bottom0 > 0) Check.kernelWPositive
  if pool_param.global_pooling then
    CHECK (padH pool_param = 0 ∧ padW pool_param = 0
        ∧ strideH pool_param = 1 ∧ strideW pool_param = 1) Check.globalPoolingPadStride
  if padH pool_param ≠ 0 ∨ padW pool_param ≠ 0 then
    CHECK (pool_param.pool = PoolMethod.AVE ∨ pool_param.pool = PoolMethod.MAX)
      Check.padPoolMethod
    CHECK (padH pool_param < kernelH pool_param bottom0) Check.padHLtKernel
    CHECK (padW pool_param < kernelW pool_param bottom0) Check.padWLtKernel

/-- Lines 115-131 of `LayerSetUp`: the output extents `height_out_` and
`width_out_`, with the clipping of the last window and its two `CHECK_LT`s
when some pad is nonzero.  The arguments are the members assigned before
(`pad_b_ = pad_t_` and `pad_r_ = pad_l_` at this point). -/
def outputExtents (bottom0 : Blob)
    (kernel_h_ kernel_w_ pad_t_ pad_l_ stride_h_ stride_w_ : Int) : Except Failure (Int × Int) := do
  let pad_b_ := pad_t_
  let pad_r_ := pad_l_
  -- lines 115-118
  let ch ← ceilDiv (wrap32 (wrap32 (wrap32 (bottom0.height + pad_t_) + pad_b_) - kernel_h_))
    stride_h_
  let height_out0 : Int := wrap32 (ch + 1)
  let cw ← ceilDiv (wrap32 (wrap32 (wrap32 (bottom0.width + pad_r_) + pad_l_) - kernel_w_))
    stride_w_
  let width_out0 : Int := wrap32 (cw + 1)
  -- lines 120-131
  if pad_t_ ≠ 0 ∨ pad_b_ ≠ 0 ∨ pad_r_ ≠ 0 ∨ pad_l_ ≠ 0 then do
    let height_out1 :=
      if wrap32 (wrap32 (height_out0 - 1) * stride_h_) ≥ wrap32 (bottom0.height + pad_t_)
      then wrap32 (height_out0 - 1)
      else height_out0
    let width_out1 :=
      if wrap32 (wrap32 (width_out0 - 1) * stride_w_) ≥ wrap32 (bottom0.width + pad_l_)
      then wrap32 (width_out0 - 1)
      else width_out0
    CHECK (wrap32 (wrap32 (height_out1 - 1) * stride_h_) < wrap32 (bottom0.height + pad_t_))
      Check.lastPoolingInsideH
    CHECK (wrap32 (wrap32 (width_out1 - 1) * stride_w_) < wrap32 (bottom0.width + pad_l_))
      Check.lastPoolingInsideW
    pure (height_out1, width_out1)
  else pure (height_out0, width_out0)

/-- Lines 115-137 of `LayerSetUp`: the output extents (lines 115-131), then
the growth of the bottom and right pads (lines 133-137). -/
def resolveGeometry (fuel : Nat) (bottom0 : Blob) (global_pooling_ : Bool)
    (kernel_h_ kernel_w_ pad_t_ pad_l_ stride_h_ stride_w_ : Int) : Except Failure Geometry := do
  let (height_out_, width_out_) ←
    outputExtents bottom0 kernel_h_ kernel_w_ pad_t_ pad_l_ stride_h_ stride_w_
  -- lines 133-134
  let h : Int := wrap32 (bottom0.height + pad_t_)
  let pad_b_ ← growPad fuel h pad_t_
    (wrap32 (wrap32 (stride_h_ * wrap32 (height_out_ - 1)) + kernel_h_))
  -- lines 136-137
  let w : Int := wrap32 (bottom0.width + pad_l_)
  let pad_r_ ← growPad fuel w pad_l_
    (wrap32 (wrap32 (stride_w_ * wrap32 (width_out_ - 1)) + kernel_w_))
  pure { global_pooling_ := global_pooling_, kernel_h_ := kernel_h_, kernel_w_ := kernel_w_,
         pad_t_ := pad_t_, pad_b_ := pad_b_, pad_l_ := pad_l_, pad_r_ := pad_r_,
         stride_h_ := stride_h_, stride_w_ := stride_w_,
         height_out_ := height_out_, width_out_ := width_out_ }

/-- The member function `MKLDNNPoolingLayer::LayerSetUp` (lines 53-138).
The argument `pool_param` is `layer_param_.pooling_param()`, `bottom` the
input vector; the result holds the members the function assigns.  The
source reads `bottom[0]` at line 79 under global pooling and at line 116
otherwise; the embedding reads it once, after the field-presence checks,
which makes a difference for an empty `bottom` only. -/
def LayerSetUp (fuel : Nat) (pool_param : PoolingParameter) (bottom : List Blob) :
    Except Failure Geometry := do
  checkFieldPresence pool_param
  -- `bottom[0]`, first used at line 79 or 116
  let bottom0 ← match bottom with
    | [] => throw Failure.undefinedBehaviour
    | b :: _ => pure b
  checkParameters pool_param bottom0
  resolveGeometry fuel bottom0 pool_param.global_pooling
    (kernelH pool_param bottom0) (kernelW pool_param bottom0)
    (padH pool_param) (padW pool_param) (strideH pool_param) (strideW pool_param)

/-! ## Backend objects -/

/-- A compute engine of the backend (`mkldnn::engine`), identified by a
number. -/
structure Engine where
  id : Nat
  deriving DecidableEq, Repr

/-- Template parameter `Dtype` of the layer. -/
inductive Dtype
  | float
  | double
  deriving DecidableEq, Repr

/-- Execution phase `phase_` of the layer. -/
inductive Phase
  | TRAIN
  | TEST
  deriving DecidableEq, Repr

/-- The two values of `prop_kind` the layer uses. -/
inductive PropKind
  | forward_training
  | forward_scoring
  deriving DecidableEq, Repr

/-- The two values of `algorithm` the layer uses. -/
inductive Algorithm
  | pooling_max
  | pooling_avg
  deriving DecidableEq, Repr

/-- The one value of `memory::data_type` the layer uses. -/
inductive DataType
  | f32
  deriving DecidableEq, Repr

/-- A `memory::desc`: extents, element type and layout. -/
structure MemoryDesc where
  dims : List Int
  data_type : DataType
  format : Format
  deriving DecidableEq, Repr

/-- A `memory::primitive_desc`: a memory descriptor bound to an engine. -/
structure MemPD where
  desc : MemoryDesc
  engine : Engine
  deriving DecidableEq, Repr

/-- A `pooling_forward::desc` (padding kind is always `zero`). -/
structure PoolingFwdDesc where
  propagation : PropKind
  algorithm : Algorithm
  src_desc : MemoryDesc
  dst_desc : MemoryDesc
  strides : Int × Int
  kernel : Int × Int
  padding_l : Int × Int
  padding_r : Int × Int
  deriving DecidableEq, Repr

/-- A `pooling_forward::primitive_desc`: the descriptor bound to the engine
it was constructed for. -/
structure PoolingFwdPD where
  desc : PoolingFwdDesc
  engine : Engine
  deriving DecidableEq, Repr

/-- A `pooling_backward::desc` (padding kind is always `zero`). -/
structure PoolingBwdDesc where
  algorithm : Algorithm
  diff_src_desc : MemoryDesc
  diff_dst_desc : MemoryDesc
  strides : Int × Int
  kernel : Int × Int
  padding_l : Int × Int
  padding_r : Int × Int
  deriving DecidableEq, Repr

/-- A `pooling_backward::primitive_desc`: the descriptor, the engine it was
constructed for and the forward primitive descriptor passed as hint. -/
structure PoolingBwdPD where
  desc : PoolingBwdDesc
  engine : Engine
  hint_fwd_pd : PoolingFwdPD
  deriving DecidableEq, Repr

/-- The blobs whose buffers the layer hands to the backend. -/
inductive BlobRef
  | bottom (i : Nat)
  | top (i : Nat)
  | max_idx
  deriving DecidableEq, Repr

/-- A `memory` object: a primitive descriptor and the buffer it wraps. -/
structure Memory where
  pd : MemPD
  handle : BlobRef
  deriving DecidableEq, Repr

/-- The four `MKLDNNData` / `MKLDNNDiff` members of the layer. -/
inductive DataRole
  | fwd_bottom_data
  | fwd_top_data
  | bwd_top_diff
  | bwd_bottom_diff
  deriving DecidableEq, Repr

/-- The two primitives of the layer. -/
inductive PrimitiveRef
  | poolingFwd
  | poolingBwd
  deriving DecidableEq, Repr

/-- An `MKLDNNData<Dtype>` or `MKLDNNDiff<Dtype>` object as the layer
constructs it: user and private memory descriptors, the blob it wraps, its
name when one is assigned, and the primitive registered with
`set_mkldnn_primitive`. -/
structure MKLDNNMemory where
  usr_memory_pd : MemPD
  prv_memory_pd : Option MemPD
  blob : BlobRef
  is_diff : Bool
  name : Option String
  mkldnn_primitive : Option PrimitiveRef
  deriving DecidableEq, Repr

/-- The primitive or memory that `create_input(false)` (`is_output = false`)
or `create_output_memory()` (`is_output = true`) returns for the object of
role `of`. -/
structure TensorHandle where
  of : DataRole
  is_output : Bool
  deriving DecidableEq, Repr

/-- A `pooling_forward` primitive: its arguments; `workspace` is present when
it was built with the four-argument constructor. -/
structure PoolingForward where
  pd : PoolingFwdPD
  src : TensorHandle
  dst : TensorHandle
  workspace : Option Memory
  deriving DecidableEq, Repr

/-- A `pooling_backward` primitive: its arguments; `workspace` is present
when it was built with the four-argument constructor. -/
structure PoolingBackward where
  pd : PoolingBwdPD
  diff_dst : TensorHandle
  workspace : Option Memory
  diff_src : TensorHandle
  deriving DecidableEq, Repr

/-- Calls into collaborators that the layer makes, in the order made. -/
inductive Event
  | fwd_primitive_desc (engine : Engine) (accepted : Bool)
  | bwd_primitive_desc (engine : Engine) (accepted : Bool)
  | sync_before_read (d : DataRole)
  | sync_before_write (d : DataRole)
  | submit (p : PrimitiveRef)
  deriving DecidableEq, Repr

/-- The collaborators of primitive construction: the CPU engine singleton,
the engine parser (`subEngines s` lists, in order, what
`getMKLDNNSubEngine(0)`, `getMKLDNNSubEngine(1)`, ... return for the engine
string `s`), whether the constructor of a forward (backward) primitive
descriptor returns (`true`) or throws (`false`) for a descriptor and an
engine, and the workspace descriptor of a forward primitive descriptor. -/
structure Backend where
  cpu_engine : Engine
  subEngines : String → List Engine
  fwdAccepts : PoolingFwdDesc → Engine → Bool
  bwdAccepts : PoolingBwdDesc → Engine → PoolingFwdPD → Bool
  workspace_primitive_desc : PoolingFwdPD → MemPD

/-- The members of a layer object, and the calls it has made so far. -/
structure Layer where
  -- layer_param_ and phase_
  name : String
  pooling_param : PoolingParameter
  engine : String
  phase_ : Phase
  -- assigned by LayerSetUp
  geometry : Geometry
  -- assigned by Reshape
  num_ : Int
  channels_ : Int
  height_ : Int
  width_ : Int
  max_idx_ : Option (List Int)
  -- assigned by InitPoolingFwd
  poolingFwd_pd : Option PoolingFwdPD
  fwd_bottom_data : Option MKLDNNMemory
  fwd_top_data : Option MKLDNNMemory
  fwd_bottom_data_primitive : Option TensorHandle
  fwd_top_data_memory : Option TensorHandle
  indices_pd : Option MemPD
  indices_memory : Option Memory
  poolingFwd : Option PoolingForward
  -- assigned by InitPoolingBwd
  poolingBwd_pd : Option PoolingBwdPD
  bwd_top_diff : Option MKLDNNMemory
  bwd_bottom_diff : Option MKLDNNMemory
  bwd_top_diff_primitive : Option TensorHandle
  bwd_bottom_diff_memory : Option TensorHandle
  poolingBwd : Option PoolingBackward
  -- calls made
  trace : List Event
  deriving DecidableEq, Repr

/-- Result of a member function that changes the layer: the new layer, or a
failure together with the layer at the moment of the failure. -/
abbrev Result := Except (Failure × Layer) Layer

/-- Record a call. -/
def Layer.log (L : Layer) (ev : Event) : Layer :=
  { L with trace := L.trace ++ [ev] }

/-- The member function `MKLDNNPoolingLayer::Reshape` (lines 141-163).  The reshaping of the top
blobs acts on the arguments only; of the layer it changes the four input
extents and, with a single top blob, the shape of `max_idx_`. -/
def Reshape (L : Layer) (bottom top : List Blob) : Result :=
  match bottom with
  | [] => throw (Failure.undefinedBehaviour, L)
  | bottom0 :: _ =>
    let L1 := { L with num_ := bottom0.num, channels_ := bottom0.channels,
                       height_ := bottom0.height, width_ := bottom0.width }
    if 4 ≠ bottom0.num_axes then throw (Failure.check Check.fourAxes, L1)
    else
      match top with
      | [] => throw (Failure.undefinedBehaviour, L1)
      | [_] =>
        pure { L1 with max_idx_ := some [(bottom0.num : Int), L1.channels_,
                                          L1.geometry.height_out_, L1.geometry.width_out_] }
      | _ :: _ :: _ => pure L1

/-- Modelled from the spec: the macro `NOT_IMPLEMENTED`, whose definition is
not among the sources.  By sections 4.3 and 7 it rejects with the fatal error
NotImplemented; the layer is left as it is at that moment. -/
def NOT_IMPLEMENTED {α : Type} (L : Layer) : Except (Failure × Layer) α :=
  throw (Failure.notImplemented, L)

/-- The switch on the pooling method, lines 172-185 and 309-322.  The three
methods are all the values of the enumeration, so the `default` branch is
not reached. -/
def poolingAlgorithm (L : Layer) : Except (Failure × Layer) Algorithm :=
  match L.pooling_param.pool with
  | PoolMethod.MAX => pure Algorithm.pooling_max
  | PoolMethod.AVE => pure Algorithm.pooling_avg
  | PoolMethod.STOCHASTIC => NOT_IMPLEMENTED L

/-- The candidate list, lines 231-234 and 370-373: the engine string of the
layer, with the default substituted, parsed by the engine parser. -/
def candidateEngines (B : Backend) (L : Layer) : List Engine :=
  let subengines := L.engine
  let subengines := if subengines = "" ∨ subengines = "MKLDNN" then "MKLDNN:CPU" else subengines
  B.subEngines subengines

/-- The value of `propagation`, line 170. -/
def propagationOf (L : Layer) : PropKind :=
  if L.phase_ = Phase.TEST then PropKind.forward_scoring else PropKind.forward_training

/-- The descriptor `poolingFwd_desc` built at lines 187-229 for the algorithm
`alg`; `bottom0` is `bottom[0]`. -/
def poolingFwdDesc (L : Layer) (alg : Algorithm) (bottom0 : Blob) : PoolingFwdDesc :=
  let bottom_tz : List Int := [L.num_, L.channels_, L.height_, L.width_]
  let top_tz : List Int := [L.num_, L.channels_, L.geometry.height_out_, L.geometry.width_out_]
  let cmfmt : Format := match bottom0.prv_data with
    | some fmt => fmt
    | none => Format.nchw
  { propagation := propagationOf L, algorithm := alg,
    src_desc := { dims := bottom_tz, data_type := DataType.f32, format := cmfmt },
    dst_desc := { dims := top_tz, data_type := DataType.f32, format := cmfmt },
    strides := (L.geometry.stride_h_, L.geometry.stride_w_),
    kernel := (L.geometry.kernel_h_, L.geometry.kernel_w_),
    padding_l := (L.geometry.pad_t_, L.geometry.pad_l_),
    padding_r := (L.geometry.pad_b_, L.geometry.pad_r_) }

/-- The loop of lines 235-245.  The list is the part of the candidate list
from index `subEngineIndex` on; the result is the index at which the loop
stops and the layer then. -/
def fwdEngineLoop (B : Backend) (desc : PoolingFwdDesc) :
    List Engine → Nat → Layer → Nat × Layer
  | [], subEngineIndex, L => (subEngineIndex, L)
  | e :: rest, subEngineIndex, L =>
    if B.fwdAccepts desc e then
      (subEngineIndex,
        { L.log (Event.fwd_primitive_desc e true) with poolingFwd_pd := some ⟨desc, e⟩ })
    else fwdEngineLoop B desc rest (subEngineIndex + 1) (L.log (Event.fwd_primitive_desc e false))

/-- The member function `MKLDNNPoolingLayer::InitPoolingFwd` (lines 165-283). -/
def InitPoolingFwd (D : Dtype) (B : Backend) (L : Layer) (bottom top : List Blob) : Result := do
  -- line 168
  if D = Dtype.double then NOT_IMPLEMENTED L
  -- lines 170-185
  let propagation := propagationOf L
  let pooling_algorithm ← poolingAlgorithm L
  -- lines 187-229
  let bottom0 ← match bottom with
    | [] => throw (Failure.undefinedBehaviour, L)
    | b :: _ => pure b
  let bottom_data_is_prv := bottom0.prv_data.isSome
  let bottom_tz : List Int := [L.num_, L.channels_, L.height_, L.width_]
  let top_tz : List Int := [L.num_, L.channels_, L.geometry.height_out_, L.geometry.width_out_]
  let poolingFwd_desc := poolingFwdDesc L pooling_algorithm bottom0
  let usr_bottom_data_mpd : MemPD := ⟨⟨bottom_tz, DataType.f32, Format.nchw⟩, B.cpu_engine⟩
  let usr_top_data_mpd : MemPD := ⟨⟨top_tz, DataType.f32, Format.nchw⟩, B.cpu_engine⟩
  -- lines 231-245
  let ep := candidateEngines B L
  let (subEngineIndex, L) := fwdEngineLoop B poolingFwd_desc ep 0 L
  -- line 247
  let poolingFwd_pd ← match L.poolingFwd_pd with
    | none => throw (Failure.check Check.poolingFwdPd, L)
    | some pd => pure pd
  -- line 248
  let engine ← match ep[subEngineIndex]? with
    | none => throw (Failure.undefinedBehaviour, L)
    | some e => pure e
  -- lines 251-256
  let prv_fwd_bottom_data_mpd : Option MemPD :=
    if bottom_data_is_prv then some ⟨poolingFwd_desc.src_desc, engine⟩ else none
  let prv_fwd_top_data_mpd : Option MemPD :=
    if bottom_data_is_prv then some ⟨poolingFwd_desc.dst_desc, engine⟩ else none
  -- lines 261-265
  let use_top_mask := top.length > 1
  let mask : BlobRef := if use_top_mask then BlobRef.top 1 else BlobRef.max_idx
  -- lines 268-272
  let L := { L with
    fwd_bottom_data := some ⟨usr_bottom_data_mpd, prv_fwd_bottom_data_mpd, BlobRef.bottom 0,
                              false, none, none⟩,
    fwd_bottom_data_primitive := some ⟨DataRole.fwd_bottom_data, false⟩ }
  let fwd_bottom_data_primitive : TensorHandle := ⟨DataRole.fwd_bottom_data, false⟩
  let _ ← match top with
    | [] => throw (Failure.undefinedBehaviour, L)
    | t :: _ => pure t
  let L := { L with
    fwd_top_data := some ⟨usr_top_data_mpd, prv_fwd_top_data_mpd, BlobRef.top 0,
                           false, none, none⟩,
    fwd_top_data_memory := some ⟨DataRole.fwd_top_data, true⟩ }
  let fwd_top_data_memory : TensorHandle := ⟨DataRole.fwd_top_data, true⟩
  -- lines 274-280
  let L :=
    if propagation = PropKind.forward_training ∧ pooling_algorithm ≠ Algorithm.pooling_avg then
      let indices_pd := B.workspace_primitive_desc poolingFwd_pd
      let indices_memory : Memory := ⟨indices_pd, mask⟩
      { L with indices_pd := some indices_pd, indices_memory := some indices_memory,
               poolingFwd := some ⟨poolingFwd_pd, fwd_bottom_data_primitive,
                                    fwd_top_data_memory, some indices_memory⟩ }
    else
      { L with poolingFwd := some ⟨poolingFwd_pd, fwd_bottom_data_primitive,
                                    fwd_top_data_memory, none⟩ }
  -- lines 281-282
  pure { L with
    fwd_bottom_data := L.fwd_bottom_data.map
      (fun d => { d with mkldnn_primitive := some PrimitiveRef.poolingFwd }),
    fwd_top_data := L.fwd_top_data.map
      (fun d => { d with mkldnn_primitive := some PrimitiveRef.poolingFwd }) }

/-- The member function `MKLDNNPoolingLayer::Forward_cpu` (lines 287-300).
Calling a member of a null object is undefined. -/
def Forward_cpu (D : Dtype) (B : Backend) (L : Layer) (bottom top : List Blob) : Result := do
  let L ← if L.poolingFwd_pd = none then InitPoolingFwd D B L bottom top else pure L
  if L.fwd_bottom_data = none then throw (Failure.undefinedBehaviour, L)
  let L := L.log (Event.sync_before_read DataRole.fwd_bottom_data)
  if L.fwd_top_data = none then throw (Failure.undefinedBehaviour, L)
  let L := L.log (Event.sync_before_write DataRole.fwd_top_data)
  if L.poolingFwd = none then throw (Failure.undefinedBehaviour, L)
  pure (L.log (Event.submit PrimitiveRef.poolingFwd))

/-- The descriptor `poolingBwd_desc` built at lines 324-368 for the algorithm
`alg`; `top0` is `top[0]`. -/
def poolingBwdDesc (L : Layer) (alg : Algorithm) (top0 : Blob) : PoolingBwdDesc :=
  let bottom_tz : List Int := [L.num_, L.channels_, L.height_, L.width_]
  let top_tz : List Int := [L.num_, L.channels_, L.geometry.height_out_, L.geometry.width_out_]
  let bwd_cmfmt : Format := match top0.prv_diff with
    | some fmt => fmt
    | none => Format.nchw
  { algorithm := alg,
    diff_src_desc := { dims := bottom_tz, data_type := DataType.f32, format := bwd_cmfmt },
    diff_dst_desc := { dims := top_tz, data_type := DataType.f32, format := bwd_cmfmt },
    strides := (L.geometry.stride_h_, L.geometry.stride_w_),
    kernel := (L.geometry.kernel_h_, L.geometry.kernel_w_),
    padding_l := (L.geometry.pad_t_, L.geometry.pad_l_),
    padding_r := (L.geometry.pad_b_, L.geometry.pad_r_) }

/-- The loop of lines 374-384.  The list is the part of the candidate list
from index `subEngineIndex` on.  Every iteration dereferences
`poolingFwd_pd`. -/
def bwdEngineLoop (B : Backend) (desc : PoolingBwdDesc) :
    List Engine → Nat → Layer → Except (Failure × Layer) (Nat × Layer)
  | [], subEngineIndex, L => pure (subEngineIndex, L)
  | e :: rest, subEngineIndex, L =>
    match L.poolingFwd_pd with
    | none => throw (Failure.undefinedBehaviour, L)
    | some fwd_pd =>
      if B.bwdAccepts desc e fwd_pd then
        pure (subEngineIndex,
          { L.log (Event.bwd_primitive_desc e true) with
            poolingBwd_pd := some ⟨desc, e, fwd_pd⟩ })
      else
        bwdEngineLoop B desc rest (subEngineIndex + 1) (L.log (Event.bwd_primitive_desc e false))

/-- The member function `MKLDNNPoolingLayer::InitPoolingBwd` (lines 302-414). -/
def InitPoolingBwd (D : Dtype) (B : Backend) (L : Layer) (top : List Blob)
    (_propagate_down : List Bool) (bottom : List Blob) : Result := do
  -- line 307
  if D = Dtype.double then NOT_IMPLEMENTED L
  -- lines 309-322
  let pooling_algorithm ← poolingAlgorithm L
  -- lines 324-368
  let top0 ← match top with
    | [] => throw (Failure.undefinedBehaviour, L)
    | t :: _ => pure t
  let top_diff_is_prv := top0.prv_diff.isSome
  let bottom_tz : List Int := [L.num_, L.channels_, L.height_, L.width_]
  let top_tz : List Int := [L.num_, L.channels_, L.geometry.height_out_, L.geometry.width_out_]
  let poolingBwd_desc := poolingBwdDesc L pooling_algorithm top0
  let usr_bottom_data_mpd : MemPD := ⟨⟨bottom_tz, DataType.f32, Format.nchw⟩, B.cpu_engine⟩
  let usr_top_data_mpd : MemPD := ⟨⟨top_tz, DataType.f32, Format.nchw⟩, B.cpu_engine⟩
  -- lines 370-384
  let ep := candidateEngines B L
  let (subEngineIndex, L) ← bwdEngineLoop B poolingBwd_desc ep 0 L
  -- line 386
  let poolingBwd_pd ← match L.poolingBwd_pd with
    | none => throw (Failure.check Check.poolingBwdPd, L)
    | some pd => pure pd
  -- line 387
  let engine ← match ep[subEngineIndex]? with
    | none => throw (Failure.undefinedBehaviour, L)
    | some e => pure e
  -- lines 390-394
  let prv_bwd_bottom_diff_mpd : Option MemPD :=
    if top_diff_is_prv then some ⟨poolingBwd_desc.diff_src_desc, engine⟩ else none
  let prv_bwd_top_diff_mpd : Option MemPD :=
    if top_diff_is_prv then some ⟨poolingBwd_desc.diff_dst_desc, engine⟩ else none
  -- lines 397-399
  let _ ← match bottom with
    | [] => throw (Failure.undefinedBehaviour, L)
    | b :: _ => pure b
  let L := { L with
    bwd_bottom_diff := some ⟨usr_bottom_data_mpd, prv_bwd_bottom_diff_mpd, BlobRef.bottom 0,
                              true, some ("bwd_bottom_diff_data   @ " ++ L.name), none⟩,
    bwd_bottom_diff_memory := some ⟨DataRole.bwd_bottom_diff, true⟩ }
  let bwd_bottom_diff_memory : TensorHandle := ⟨DataRole.bwd_bottom_diff, true⟩
  -- lines 401-403
  let L := { L with
    bwd_top_diff := some ⟨usr_top_data_mpd, prv_bwd_top_diff_mpd, BlobRef.top 0,
                           true, some ("bwd_top_diff_data   @ " ++ L.name), none⟩,
    bwd_top_diff_primitive := some ⟨DataRole.bwd_top_diff, false⟩ }
  let bwd_top_diff_primitive : TensorHandle := ⟨DataRole.bwd_top_diff, false⟩
  -- lines 405-411
  let L ←
    if pooling_algorithm ≠ Algorithm.pooling_avg then
      match L.indices_memory with
      | none => throw (Failure.undefinedBehaviour, L)
      | some indices_memory =>
        pure { L with poolingBwd := some ⟨poolingBwd_pd, bwd_top_diff_primitive,
                                           some indices_memory, bwd_bottom_diff_memory⟩ }
    else
      pure { L with poolingBwd := some ⟨poolingBwd_pd, bwd_top_diff_primitive,
                                         none, bwd_bottom_diff_memory⟩ }
  -- lines 412-413
  pure { L with
    bwd_bottom_diff := L.bwd_bottom_diff.map
      (fun d => { d with mkldnn_primitive := some PrimitiveRef.poolingBwd }),
    bwd_top_diff := L.bwd_top_diff.map
      (fun d => { d with mkldnn_primitive := some PrimitiveRef.poolingBwd }) }

/-- The member function `MKLDNNPoolingLayer::Backward_cpu` (lines 416-432).
Reading `propagate_down[0]` of an empty vector is undefined. -/
def Backward_cpu (D : Dtype) (B : Backend) (L : Layer) (top : List Blob)
    (propagate_down : List Bool) (bottom : List Blob) : Result :=
  match propagate_down with
  | [] => throw (Failure.undefinedBehaviour, L)
  | false :: _ => pure L
  | true :: _ => do
    let L ← if L.poolingBwd_pd = none then InitPoolingBwd D B L top propagate_down bottom
            else pure L
    if L.bwd_top_diff = none then throw (Failure.undefinedBehaviour, L)
    let L := L.log (Event.sync_before_read DataRole.bwd_top_diff)
    if L.bwd_bottom_diff = none then throw (Failure.undefinedBehaviour, L)
    let L := L.log (Event.sync_before_write DataRole.bwd_bottom_diff)
    if L.poolingBwd = none then throw (Failure.undefinedBehaviour, L)
    pure (L.log (Event.submit PrimitiveRef.poolingBwd))

/-- Modelled from the spec: the constructor of the layer, which is not among
the sources.  By sections 4.4 and 4.5 a new layer is in the state
Uninitialized for both passes: neither `InitPoolingFwd` nor `InitPoolingBwd`
has run, so all primitive members are null, and no call has been made. -/
def Layer.uninitialized (name : String) (pooling_param : PoolingParameter) (engine : String)
    (phase_ : Phase) (geometry : Geometry) (num_ channels_ height_ width_ : Int)
    (max_idx_ : Option (List Int)) : Layer :=
  { name := name, pooling_param := pooling_param, engine := engine, phase_ := phase_,
    geometry := geometry, num_ := num_, channels_ := channels_, height_ := height_,
    width_ := width_, max_idx_ := max_idx_,
    poolingFwd_pd := none, fwd_bottom_data := none, fwd_top_data := none,
    fwd_bottom_data_primitive := none, fwd_top_data_memory := none,
    indices_pd := none, indices_memory := none, poolingFwd := none,
    poolingBwd_pd := none, bwd_top_diff := none, bwd_bottom_diff := none,
    bwd_top_diff_primitive := none, bwd_bottom_diff_memory := none, poolingBwd := none,
    trace := [] }


/-! ## Concrete inputs -/

/-- A configuration given by per-axis kernel, pad and stride fields (the
square fields `kernel_size`, `pad`, `stride` are absent and their accessors
return `0`, `0`, `1`). -/
def rectParam (pool : PoolMethod) (kernel_h kernel_w pad_h pad_w stride_h stride_w : Nat) :
    PoolingParameter :=
  { pool := pool, global_pooling := false,
    has_kernel_size := false, kernel_size := 0,
    has_kernel_h := true, kernel_h := kernel_h, has_kernel_w := true, kernel_w := kernel_w,
    has_pad := false, pad := 0,
    has_pad_h := true, pad_h := pad_h, has_pad_w := true, pad_w := pad_w,
    has_stride := false, stride := 1,
    has_stride_h := true, stride_h := stride_h, has_stride_w := true, stride_w := stride_w }

/-- A configuration given by the square fields `kernel_size`, `pad` and
`stride` (the per-axis fields are absent and their accessors return `0`). -/
def squareParam (pool : PoolMethod) (kernel_size pad stride : Nat) : PoolingParameter :=
  { pool := pool, global_pooling := false,
    has_kernel_size := true, kernel_size := kernel_size,
    has_kernel_h := false, kernel_h := 0, has_kernel_w := false, kernel_w := 0,
    has_pad := true, pad := pad,
    has_pad_h := false, pad_h := 0, has_pad_w := false, pad_w := 0,
    has_stride := true, stride := stride,
    has_stride_h := false, stride_h := 0, has_stride_w := false, stride_w := 0 }

/-- A global-pooling configuration with no other field set (the accessors
return pad `0` and stride `1`). -/
def globalParam (pool : PoolMethod) : PoolingParameter :=
  { pool := pool, global_pooling := true,
    has_kernel_size := false, kernel_size := 0,
    has_kernel_h := false, kernel_h := 0, has_kernel_w := false, kernel_w := 0,
    has_pad := false, pad := 0,
    has_pad_h := false, pad_h := 0, has_pad_w := false, pad_w := 0,
    has_stride := false, stride := 1,
    has_stride_h := false, stride_h := 0, has_stride_w := false, stride_w := 0 }

/-- A four-axis blob in the canonical layout. -/
def blob4 (num channels height width : Nat) : Blob :=
  { num := num, channels := channels, height := height, width := width, num_axes := 4,
    prv_data := none, prv_diff := none }


/-- Closed form of the layer that `InitPoolingFwd` returns when the loop of
lines 235-245 stops at engine `e` after passing over `skipped`: the forward
members are bound to `e`, and the index mask exists exactly for training
propagation with an algorithm other than average. -/
def fwdReady (B : Backend) (L : Layer) (bottom0 : Blob) (top : List Blob) (alg : Algorithm)
    (skipped : List Engine) (e : Engine) : Layer :=
  let desc := poolingFwdDesc L alg bottom0
  let pd : PoolingFwdPD := ⟨desc, e⟩
  let prv (d : MemoryDesc) : Option MemPD := if bottom0.prv_data.isSome then some ⟨d, e⟩ else none
  let mask : BlobRef := if top.length > 1 then BlobRef.top 1 else BlobRef.max_idx
  let workspace : Option Memory :=
    if propagationOf L = PropKind.forward_training ∧ alg ≠ Algorithm.pooling_avg
    then some ⟨B.workspace_primitive_desc pd, mask⟩ else none
  { L with
    poolingFwd_pd := some pd,
    fwd_bottom_data := some
      { usr_memory_pd := ⟨⟨[L.num_, L.channels_, L.height_, L.width_], DataType.f32,
                            Format.nchw⟩, B.cpu_engine⟩,
        prv_memory_pd := prv desc.src_desc, blob := BlobRef.bottom 0, is_diff := false,
        name := none, mkldnn_primitive := some PrimitiveRef.poolingFwd },
    fwd_top_data := some
      { usr_memory_pd := ⟨⟨[L.num_, L.channels_, L.geometry.height_out_,
                             L.geometry.width_out_], DataType.f32, Format.nchw⟩, B.cpu_engine⟩,
        prv_memory_pd := prv desc.dst_desc, blob := BlobRef.top 0, is_diff := false,
        name := none, mkldnn_primitive := some PrimitiveRef.poolingFwd },
    fwd_bottom_data_primitive := some ⟨DataRole.fwd_bottom_data, false⟩,
    fwd_top_data_memory := some ⟨DataRole.fwd_top_data, true⟩,
    indices_pd := if workspace.isSome then some (B.workspace_primitive_desc pd) else L.indices_pd,
    indices_memory := if workspace.isSome then workspace else L.indices_memory,
    poolingFwd := some ⟨pd, ⟨DataRole.fwd_bottom_data, false⟩, ⟨DataRole.fwd_top_data, true⟩,
                        workspace⟩,
    trace := L.trace ++ skipped.map (fun x => Event.fwd_primitive_desc x false)
      ++ [Event.fwd_primitive_desc e true] }

/-- Closed form of the layer that `InitPoolingBwd` returns when the loop of
lines 374-384 stops at engine `e` after passing over `skipped`, given the
forward primitive descriptor `fwd_pd` and the workspace handed to the
primitive. -/
def bwdReady (B : Backend) (L : Layer) (top0 : Blob) (alg : Algorithm) (fwd_pd : PoolingFwdPD)
    (workspace : Option Memory) (skipped : List Engine) (e : Engine) : Layer :=
  let desc := poolingBwdDesc L alg top0
  let pd : PoolingBwdPD := ⟨desc, e, fwd_pd⟩
  let prv (d : MemoryDesc) : Option MemPD := if top0.prv_diff.isSome then some ⟨d, e⟩ else none
  { L with
    poolingBwd_pd := some pd,
    bwd_bottom_diff := some
      { usr_memory_pd := ⟨⟨[L.num_, L.channels_, L.height_, L.width_], DataType.f32,
                            Format.nchw⟩, B.cpu_engine⟩,
        prv_memory_pd := prv desc.diff_src_desc, blob := BlobRef.bottom 0, is_diff := true,
        name := some ("bwd_bottom_diff_data   @ " ++ L.name),
        mkldnn_primitive := some PrimitiveRef.poolingBwd },
    bwd_top_diff := some
      { usr_memory_pd := ⟨⟨[L.num_, L.channels_, L.geometry.height_out_,
                             L.geometry.width_out_], DataType.f32, Format.nchw⟩, B.cpu_engine⟩,
        prv_memory_pd := prv desc.diff_dst_desc, blob := BlobRef.top 0, is_diff := true,
        name := some ("bwd_top_diff_data   @ " ++ L.name),
        mkldnn_primitive := some PrimitiveRef.poolingBwd },
    bwd_bottom_diff_memory := some ⟨DataRole.bwd_bottom_diff, true⟩,
    bwd_top_diff_primitive := some ⟨DataRole.bwd_top_diff, false⟩,
    poolingBwd := some ⟨pd, ⟨DataRole.bwd_top_diff, false⟩, workspace,
                        ⟨DataRole.bwd_bottom_diff, true⟩⟩,
    trace := L.trace ++ skipped.map (fun x => Event.bwd_primitive_desc x false)
      ++ [Event.bwd_primitive_desc e true] }

/-- Engine `X` of the examples. -/
def engineX : Engine := ⟨0⟩

/-- Engine `Y` of the examples. -/
def engineY : Engine := ⟨1⟩

/-- A backend whose candidate list is `[X, Y]` for every engine string.
Forward construction throws on `X` and succeeds on `Y`; backward
construction succeeds on `X` only. -/
def backendXY : Backend :=
  { cpu_engine := engineY,
    subEngines := fun _ => [engineX, engineY],
    fwdAccepts := fun _ e => decide (e = engineY),
    bwdAccepts := fun _ e _ => decide (e = engineX),
    workspace_primitive_desc := fun pd => ⟨pd.desc.dst_desc, pd.engine⟩ }

/-- A backend with the single candidate `Y`, on which every construction
succeeds. -/
def backendY : Backend :=
  { cpu_engine := engineY,
    subEngines := fun _ => [engineY],
    fwdAccepts := fun _ _ => true,
    bwdAccepts := fun _ _ _ => true,
    workspace_primitive_desc := fun pd => ⟨pd.desc.dst_desc, pd.engine⟩ }

/-- A new max-pooling layer in phase `phase_` with kernel 2, stride 2 and no
padding, set up and reshaped for a 1 x 1 x 4 x 4 input. -/
def exampleLayer (phase_ : Phase) : Layer :=
  Layer.uninitialized "pool" (squareParam PoolMethod.MAX 2 0 2) "" phase_
    { global_pooling_ := false, kernel_h_ := 2, kernel_w_ := 2,
      pad_t_ := 0, pad_b_ := 0, pad_l_ := 0, pad_r_ := 0,
      stride_h_ := 2, stride_w_ := 2, height_out_ := 2, width_out_ := 2 }
    1 1 4 4 (some [1, 1, 2, 2])


/-! ## Single precision arithmetic: lemmas -/

theorem divRoundEven_ge (N D : Nat) : N / D ≤ divRoundEven N D := by
  unfold divRoundEven
  simp only
  split_ifs <;> omega

theorem divRoundEven_le (N D : Nat) : divRoundEven N D ≤ N / D + 1 := by
  unfold divRoundEven
  simp only
  split_ifs <;> omega

theorem divRoundEven_of_lt {N D : Nat} (h : 2 * (N % D) < D) : divRoundEven N D = N / D := by
  unfold divRoundEven
  simp [h]

theorem divRoundEven_of_gt {N D : Nat} (h : D < 2 * (N % D)) : divRoundEven N D = N / D + 1 := by
  unfold divRoundEven
  have : ¬ 2 * (N % D) < D := by omega
  simp [h, this]

/-- strictly between the neighbouring integers -/
theorem divRoundEven_between (A B P : Nat) (hA : 0 < A) (hA24 : A ≤ 2 ^ 24) (hB : 0 < B)
    (hP : 0 < P) (hnorm : 2 ^ 23 * B ≤ A * P) (hr : A % B ≠ 0) :
    (A / B) * P < divRoundEven (A * P) B ∧ divRoundEven (A * P) B < (A / B + 1) * P := by
  obtain ⟨q, hq⟩ : ∃ q, q = A / B := ⟨_, rfl⟩
  obtain ⟨r, hrdef⟩ : ∃ r, r = A % B := ⟨_, rfl⟩
  obtain ⟨Q, hQ⟩ : ∃ Q, Q = (A * P) / B := ⟨_, rfl⟩
  obtain ⟨R, hR⟩ : ∃ R, R = (A * P) % B := ⟨_, rfl⟩
  have hAqr : A = B * q + r := by rw [hq, hrdef]; exact (Nat.div_add_mod A B).symm
  have hrB : r < B := by rw [hrdef]; exact Nat.mod_lt _ hB
  have hr0 : 0 < r := by rw [hrdef]; exact Nat.pos_of_ne_zero hr
  have hNQR : A * P = B * Q + R := by rw [hQ, hR]; exact (Nat.div_add_mod (A * P) B).symm
  have hRB : R < B := by rw [hR]; exact Nat.mod_lt _ hB
  have hB2P : B ≤ 2 * P := by
    have : A * P ≤ 2 ^ 24 * P := Nat.mul_le_mul_right P hA24
    omega
  rw [← hq]
  have hge := divRoundEven_ge (A * P) B
  have hle := divRoundEven_le (A * P) B
  rw [← hQ] at hge hle
  -- product facts
  have e1 : A * P = B * (q * P) + r * P := by rw [hAqr]; ring
  have hQlow : q * P ≤ Q := by
    rw [hQ]; apply (Nat.le_div_iff_mul_le hB).2
    calc q * P * B = B * (q * P) := by ring
      _ ≤ A * P := by omega
  have hQup : Q < (q + 1) * P := by
    rw [hQ]; apply (Nat.div_lt_iff_lt_mul hB).2
    have : r * P < B * P := Nat.mul_lt_mul_of_pos_right hrB hP
    calc A * P = B * (q * P) + r * P := e1
      _ < B * (q * P) + B * P := by omega
      _ = (q + 1) * P * B := by ring
  constructor
  · by_contra hcon
    have hQeq : Q = q * P := by omega
    have hm : divRoundEven (A * P) B = Q := by omega
    have hRval : R = r * P := by
      have : B * Q = B * (q * P) := by rw [hQeq]
      omega
    have hnot : ¬ B < 2 * R := by
      intro hlt
      have := divRoundEven_of_gt (N := A * P) (D := B) (by rw [← hR]; exact hlt)
      rw [← hQ] at this
      omega
    have hrP : P ≤ r * P := Nat.le_mul_of_pos_left P hr0
    have hB2 : B = 2 * P := by omega
    have hr1 : r * P = P := by omega
    have hA2 : 2 ^ 24 * P ≤ A * P := by
      calc 2 ^ 24 * P = 2 ^ 23 * (2 * P) := by ring
        _ = 2 ^ 23 * B := by rw [hB2]
        _ ≤ A * P := hnorm
    have hAeq : 2 ^ 24 ≤ A := Nat.le_of_mul_le_mul_right hA2 hP
    have hr1' : r = 1 := by
      have : r * P = 1 * P := by omega
      exact Nat.eq_of_mul_eq_mul_right hP this
    have : A = 2 * (P * q) + 1 := by rw [hAqr, hB2, hr1']; ring
    omega
  · by_contra hcon
    have hQeq : Q + 1 = (q + 1) * P := by omega
    have hm : divRoundEven (A * P) B = Q + 1 := by omega
    have hnot : ¬ 2 * R < B := by
      intro hlt
      have := divRoundEven_of_lt (N := A * P) (D := B) (by rw [← hR]; exact hlt)
      rw [← hQ] at this
      omega
    -- B * (Q + 1) = B * (q+1) * P
    have e2 : B * Q + B = B * (q * P) + B * P := by
      have : B * (Q + 1) = B * ((q + 1) * P) := by rw [hQeq]
      calc B * Q + B = B * (Q + 1) := by ring
        _ = B * ((q + 1) * P) := this
        _ = B * (q * P) + B * P := by ring
    -- R + B * P = r * P + B
    have e3 : R + B * P = r * P + B := by omega
    -- (B - r) * P  with B - r ≥ 1
    obtain ⟨t, ht⟩ : ∃ t, B = r + t + 1 := ⟨B - r - 1, by omega⟩
    have e4 : B * P = r * P + t * P + P := by rw [ht]; ring
    have htP : 0 ≤ t * P := Nat.zero_le _
    have hB2 : B = 2 * P := by omega
    have ht0 : t * P = 0 := by omega
    have ht0' : t = 0 := by
      rcases Nat.mul_eq_zero.1 ht0 with h | h
      · exact h
      · omega
    have hA2 : 2 ^ 24 * P ≤ A * P := by
      calc 2 ^ 24 * P = 2 ^ 23 * (2 * P) := by ring
        _ = 2 ^ 23 * B := by rw [hB2]
        _ ≤ A * P := hnorm
    have hAeq : 2 ^ 24 ≤ A := Nat.le_of_mul_le_mul_right hA2 hP
    have : A + 1 = 2 * (P * q + P) := by
      have : A + 1 = B * q + B := by omega
      rw [this, hB2]; ring
    omega

theorem floorLog2Aux_eq (fuel n : Nat) (h : n ≤ fuel) : floorLog2Aux fuel n = Nat.log2 n := by
  induction fuel generalizing n with
  | zero =>
    have : n = 0 := by omega
    subst this
    simp [floorLog2Aux, Nat.log2]
  | succ f ih =>
    rw [floorLog2Aux, Nat.log2]
    by_cases h2 : 2 ≤ n
    · have : n / 2 ≤ f := by omega
      simp [h2, ih _ this]
    · simp [h2]

theorem floorLog2_eq (n : Nat) : floorLog2 n = Nat.log2 n :=
  floorLog2Aux_eq n n (le_refl n)

theorem pow_floorLog2_le {n : Nat} (h : n ≠ 0) : 2 ^ floorLog2 n ≤ n := by
  rw [floorLog2_eq]; exact Nat.log2_self_le h

theorem lt_pow_floorLog2 (n : Nat) : n < 2 ^ (floorLog2 n + 1) := by
  rw [floorLog2_eq]; exact Nat.lt_log2_self

theorem divRoundEven_mul (q D : Nat) (hD : 0 < D) : divRoundEven (q * D) D = q := by
  have h : 2 * (q * D % D) < D := by simp [hD]
  rw [divRoundEven_of_lt h, Nat.mul_div_cancel _ hD]

/-- the exponent one below the difference of the leading bit positions is never too large -/
theorem quotExp_pred (A B : Nat) (hA : 0 < A) :
    B * 2 ^ ((floorLog2 A : Int) - (floorLog2 B : Int) - 1).toNat
      ≤ A * 2 ^ (-((floorLog2 A : Int) - (floorLog2 B : Int) - 1)).toNat := by
  have h1 : 2 ^ floorLog2 A ≤ A := pow_floorLog2_le (by omega)
  have h2 : B < 2 ^ (floorLog2 B + 1) := lt_pow_floorLog2 B
  generalize floorLog2 A = la at h1 ⊢
  generalize floorLog2 B = lb at h2 ⊢
  by_cases hd : lb + 1 ≤ la
  · obtain ⟨k, rfl⟩ : ∃ k, la = lb + 1 + k := ⟨la - (lb + 1), by omega⟩
    have e1 : ((↑(lb + 1 + k) : Int) - (lb : Int) - 1).toNat = k := by omega
    have e2 : (-((↑(lb + 1 + k) : Int) - (lb : Int) - 1)).toNat = 0 := by omega
    rw [e1, e2]
    have : B * 2 ^ k ≤ 2 ^ (lb + 1) * 2 ^ k := Nat.mul_le_mul_right _ (le_of_lt h2)
    rw [← pow_add] at this
    simp only [pow_zero, mul_one]
    omega
  · obtain ⟨k, rfl⟩ : ∃ k, lb = la + k := ⟨lb - la, by omega⟩
    have e1 : ((la : Int) - (↑(la + k) : Int) - 1).toNat = 0 := by omega
    have e2 : (-((la : Int) - (↑(la + k) : Int) - 1)).toNat = k + 1 := by omega
    rw [e1, e2]
    have : 2 ^ la * 2 ^ (k + 1) ≤ A * 2 ^ (k + 1) := Nat.mul_le_mul_right _ h1
    rw [← pow_add] at this
    have e3 : la + (k + 1) = la + k + 1 := by ring
    rw [e3] at this
    simp only [pow_zero, mul_one]
    omega

/-- from a lower exponent bound to 24 significant bits -/
theorem quotExp_shift (A B : Nat) (E : Int)
    (hE : B * 2 ^ E.toNat ≤ A * 2 ^ (-E).toNat) :
    2 ^ 23 * (B * 2 ^ (E - 23).toNat) ≤ A * 2 ^ (-(E - 23)).toNat := by
  by_cases h23 : 23 ≤ E
  · obtain ⟨k, hk⟩ : ∃ k : Nat, E = 23 + k := ⟨(E - 23).toNat, by omega⟩
    subst hk
    have e1 : ((23 : Int) + k).toNat = 23 + k := by omega
    have e2 : (-((23 : Int) + k)).toNat = 0 := by omega
    have e3 : ((23 : Int) + k - 23).toNat = k := by omega
    have e4 : (-((23 : Int) + k - 23)).toNat = 0 := by omega
    rw [e1, e2] at hE
    rw [e3, e4]
    calc 2 ^ 23 * (B * 2 ^ k) = B * 2 ^ (23 + k) := by rw [pow_add]; ring
      _ ≤ A * 2 ^ 0 := hE
  · by_cases h0 : 0 ≤ E
    · obtain ⟨k, hk⟩ : ∃ k : Nat, E = k := ⟨E.toNat, by omega⟩
      subst hk
      obtain ⟨j, hj⟩ : ∃ j : Nat, 23 = k + j := ⟨23 - k, by omega⟩
      have e1 : ((k : Int)).toNat = k := by omega
      have e2 : (-(k : Int)).toNat = 0 := by omega
      have e3 : ((k : Int) - 23).toNat = 0 := by omega
      have e4 : (-((k : Int) - 23)).toNat = j := by omega
      rw [e1, e2] at hE
      rw [e3, e4, hj]
      simp only [pow_zero, mul_one] at hE ⊢
      calc 2 ^ (k + j) * B = (B * 2 ^ k) * 2 ^ j := by rw [pow_add]; ring
        _ ≤ A * 2 ^ j := Nat.mul_le_mul_right _ hE
    · obtain ⟨k, hk⟩ : ∃ k : Nat, E = -(k : Int) := ⟨(-E).toNat, by omega⟩
      subst hk
      have e1 : (-(k : Int)).toNat = 0 := by omega
      have e2 : (- -(k : Int)).toNat = k := by omega
      have e3 : (-(k : Int) - 23).toNat = 0 := by omega
      have e4 : (-(-(k : Int) - 23)).toNat = 23 + k := by omega
      rw [e1, e2] at hE
      rw [e3, e4]
      simp only [pow_zero, mul_one] at hE ⊢
      calc 2 ^ 23 * B ≤ 2 ^ 23 * (A * 2 ^ k) := Nat.mul_le_mul_left _ hE
        _ = A * 2 ^ (23 + k) := by rw [pow_add]; ring

theorem f32Quot_exact (A B : Nat) (hA : 0 < A) (hA24 : A ≤ 2 ^ 24) (hB : 0 < B) :
    f32Ceil (f32Quot A B) = ((A + B - 1) / B : Nat) ∧ f32Floor (f32Quot A B) = (A / B : Nat) := by
  have hA0 : A ≠ 0 := by omega
  unfold f32Quot
  simp only [hA0, if_false]
  generalize hEdef : (if B * 2 ^ ((floorLog2 A : Int) - (floorLog2 B : Int)).toNat
      ≤ A * 2 ^ (-((floorLog2 A : Int) - (floorLog2 B : Int))).toNat
      then (floorLog2 A : Int) - (floorLog2 B : Int)
      else (floorLog2 A : Int) - (floorLog2 B : Int) - 1) = E
  have hE : B * 2 ^ E.toNat ≤ A * 2 ^ (-E).toNat := by
    rw [← hEdef]
    split_ifs with hc
    · exact hc
    · exact quotExp_pred A B hA
  have hnorm := quotExp_shift A B E hE
  unfold f32Ceil f32Floor
  simp only
  generalize E - 23 = e at hnorm ⊢
  by_cases he : 1 ≤ e
  · obtain ⟨k, hk⟩ : ∃ k : Nat, e = k + 1 := ⟨(e - 1).toNat, by omega⟩
    subst hk
    have e1 : ((k : Int) + 1).toNat = k + 1 := by omega
    have e2 : (-((k : Int) + 1)).toNat = 0 := by omega
    rw [e1, e2] at hnorm ⊢
    simp only [pow_zero, mul_one] at hnorm ⊢
    have hk2 : 2 ≤ 2 ^ (k + 1) := by
      calc 2 = 2 ^ 1 := by norm_num
        _ ≤ 2 ^ (k + 1) := Nat.pow_le_pow_right (by norm_num) (by omega)
    have hBS : B * 2 ^ (k + 1) ≤ 2 := by omega
    have hB1 : B = 1 := by
      by_contra hne
      have : 2 * 2 ≤ B * 2 ^ (k + 1) := Nat.mul_le_mul (by omega) hk2
      omega
    subst hB1
    have hS : 2 ^ (k + 1) = 2 := by omega
    have hAeq : A = 2 ^ 24 := by omega
    subst hAeq
    rw [hS]
    constructor <;> decide
  · obtain ⟨k, hk⟩ : ∃ k : Nat, e = -(k : Int) := ⟨(-e).toNat, by omega⟩
    subst hk
    have e1 : (-(k : Int)).toNat = 0 := by omega
    have e2 : (- -(k : Int)).toNat = k := by omega
    rw [e1, e2] at hnorm ⊢
    simp only [pow_zero, mul_one] at hnorm ⊢
    have hP : 0 < 2 ^ k := Nat.pos_pow_of_pos _ (by norm_num)
    generalize 2 ^ k = P at hnorm hP ⊢
    by_cases hr : A % B = 0
    · obtain ⟨q, hq⟩ : ∃ q, A = q * B := ⟨A / B, (Nat.div_mul_cancel (Nat.dvd_of_mod_eq_zero hr)).symm⟩
      have hm : divRoundEven (A * P) B = q * P := by
        have : A * P = (q * P) * B := by rw [hq]; ring
        rw [this, divRoundEven_mul _ _ hB]
      rw [hm]
      have hq1 : A / B = q := by rw [hq]; exact Nat.mul_div_cancel _ hB
      have hq2 : (A + B - 1) / B = q := by
        rw [hq]
        have e6 : (q + 1) * B = q * B + B := by ring
        apply Nat.div_eq_of_lt_le
        · omega
        · omega
      rw [hq1, hq2]
      have e7 : (q + 1) * P = q * P + P := by ring
      constructor
      · congr 1
        apply Nat.div_eq_of_lt_le
        · omega
        · omega
      · congr 1
        exact Nat.mul_div_cancel _ hP
    · obtain ⟨hlo, hhi⟩ := divRoundEven_between A B P hA hA24 hB hP hnorm hr
      generalize divRoundEven (A * P) B = m at hlo hhi ⊢
      have hq2 : (A + B - 1) / B = A / B + 1 := by
        have h1 := Nat.div_add_mod A B
        have h2 := Nat.mod_lt A hB
        have h3 : 0 < A % B := Nat.pos_of_ne_zero hr
        apply Nat.div_eq_of_lt_le
        · have : (A / B + 1) * B = B * (A / B) + B := by ring
          omega
        · have : (A / B + 1 + 1) * B = B * (A / B) + B + B := by ring
          omega
      rw [hq2]
      generalize A / B = q at hlo hhi ⊢
      have e5 : (q + 1) * P = q * P + P := by ring
      constructor
      · congr 1
        apply Nat.div_eq_of_lt_le
        · omega
        · have : (q + 1 + 1) * P = q * P + P + P := by ring
          omega
      · congr 1
        apply Nat.div_eq_of_lt_le
        · omega
        · omega

theorem f32OfNat_exact (a : Nat) (h : a ≤ 2 ^ 24) : f32OfNat a = a := by
  rcases Nat.lt_or_ge a (2 ^ 24) with hlt | hge
  · have hl : floorLog2 a - 23 = 0 := by
      rcases Nat.eq_zero_or_pos a with h0 | hpos
      · subst h0; decide
      · have : floorLog2 a < 24 := by
          rw [floorLog2_eq]; exact (Nat.log2_lt (by omega)).2 hlt
        omega
    unfold f32OfNat
    simp only [hl, pow_zero, mul_one]
    have := divRoundEven_mul a 1 (by norm_num)
    simpa using this
  · have : a = 2 ^ 24 := by omega
    subst this
    decide

theorem f32OfNat_large (a : Nat) (h : 2 ^ 24 ≤ a) : 2 ^ 24 ≤ f32OfNat a := by
  have ha0 : a ≠ 0 := by
    have : 0 < 2 ^ 24 := by norm_num
    omega
  have h1 : 2 ^ floorLog2 a ≤ a := pow_floorLog2_le ha0
  have h2 : 24 ≤ floorLog2 a := by
    rw [floorLog2_eq]
    by_contra hcon
    have := (Nat.log2_lt ha0 (k := 24)).1 (by omega)
    omega
  obtain ⟨k, hk⟩ : ∃ k, floorLog2 a = 24 + k := ⟨floorLog2 a - 24, by omega⟩
  unfold f32OfNat
  simp only
  rw [hk] at h1 ⊢
  have e1 : 24 + k - 23 = k + 1 := by omega
  rw [e1]
  have hge := divRoundEven_ge a (2 ^ (k + 1))
  have hpos : 0 < 2 ^ (k + 1) := Nat.pos_pow_of_pos _ (by norm_num)
  have hQ : 2 ^ 23 ≤ a / 2 ^ (k + 1) := by
    apply (Nat.le_div_iff_mul_le hpos).2
    calc 2 ^ 23 * 2 ^ (k + 1) = 2 ^ (24 + k) := by rw [← pow_add]; congr 1; omega
      _ ≤ a := h1
  have hk2 : 2 ≤ 2 ^ (k + 1) := by
    calc 2 = 2 ^ 1 := by norm_num
      _ ≤ 2 ^ (k + 1) := Nat.pow_le_pow_right (by norm_num) (by omega)
  calc 2 ^ 24 = 2 ^ 23 * 2 := by norm_num
    _ ≤ divRoundEven a (2 ^ (k + 1)) * 2 ^ (k + 1) := Nat.mul_le_mul (le_trans hQ hge) hk2

theorem ceilDivF32_exact (n s : Int) (hn : 0 ≤ n) (hn24 : n ≤ 2 ^ 24) (hs : 1 ≤ s) :
    ceilDivF32 n s = some ((n + s - 1) / s) := by
  obtain ⟨a, rfl⟩ : ∃ a : Nat, n = a := ⟨n.toNat, by omega⟩
  obtain ⟨b, rfl⟩ : ∃ b : Nat, s = b := ⟨s.toNat, by omega⟩
  have hb : 0 < b := by omega
  have ha24 : a ≤ 2 ^ 24 := by exact_mod_cast hn24
  unfold ceilDivF32
  have hs0 : ¬ ((b : Int) = 0) := by omega
  have hneg1 : ¬ ((a : Int) < 0) := by omega
  have hneg2 : ¬ ((b : Int) < 0) := by omega
  simp only [hs0, if_false, Int.natAbs_ofNat, hneg1, hneg2, decide_False, if_true]
  rw [f32OfNat_exact a ha24]
  congr 1
  rcases Nat.eq_zero_or_pos a with h0 | hpos
  · subst h0
    have : ((0 : Nat) : Int) + (b : Int) - 1 = ((b - 1 : Nat) : Int) := by omega
    rw [this]
    have h1 : ((b - 1 : Nat) : Int) / (b : Int) = 0 := Int.ediv_eq_zero_of_lt (by omega) (by omega)
    rw [h1]
    simp [f32Quot, f32Ceil]
  · rcases Nat.lt_or_ge (2 ^ 24) b with hbig | hsmall
    · have hB := f32OfNat_large b (le_of_lt hbig)
      have hBpos : 0 < f32OfNat b := by
        have : 0 < 2 ^ 24 := by norm_num
        omega
      rw [(f32Quot_exact a (f32OfNat b) hpos ha24 hBpos).1]
      have e1 : (a + f32OfNat b - 1) / f32OfNat b = 1 := by
        apply Nat.div_eq_of_lt_le <;> omega
      have e2 : ((a : Int) + (b : Int) - 1) / (b : Int) = 1 := by
        have : ((a : Int) + (b : Int) - 1) = ((a - 1 : Nat) : Int) + (b : Int) * 1 := by omega
        rw [this, Int.add_mul_ediv_left _ _ (by omega)]
        have : ((a - 1 : Nat) : Int) / (b : Int) = 0 := Int.ediv_eq_zero_of_lt (by omega) (by omega)
        rw [this]; norm_num
      rw [e1, e2]; norm_num
    · rw [f32OfNat_exact b hsmall, (f32Quot_exact a b hpos ha24 hb).1]
      have : ((a : Int) + (b : Int) - 1) = ((a + b - 1 : Nat) : Int) := by omega
      rw [this]
      norm_cast


/-! ## Integer arithmetic of one axis -/

theorem ceil_mul_bounds (n s : Int) (hs : 1 ≤ s) :
    n ≤ (n + s - 1) / s * s ∧ (n + s - 1) / s * s ≤ n + s - 1 := by
  have h1 : (n + s - 1) / s * s ≤ n + s - 1 := Int.ediv_mul_le _ (by omega)
  have h2 : n + s - 1 < ((n + s - 1) / s + 1) * s := Int.lt_ediv_add_one_mul_self _ (by omega)
  have h3 : ((n + s - 1) / s + 1) * s = (n + s - 1) / s * s + s := by ring
  constructor
  · omega
  · exact h1

theorem ediv_eq_of_bounds (a s q : Int) (hs : 0 < s) (h1 : q * s ≤ a) (h2 : a < q * s + s) :
    a / s = q := by
  have := (Int.ediv_emod_unique (a := a) (b := s) (r := a - q * s) (q := q) hs).2
    ⟨by ring, by omega, by omega⟩
  exact this.1


/-! ## Machine integers: lemmas -/

theorem wrap32_of_range (x : Int) (h1 : -2147483648 ≤ x) (h2 : x < 2147483648) :
    wrap32 x = x := by
  unfold wrap32
  omega

/-! ## The pad-growth loop -/

/-- A loop whose condition fails at once leaves the pad as it is, whatever
the iteration budget. -/
theorem growPad_of_not_lt (fuel : Nat) (h pad bound : Int)
    (hn : ¬ wrap32 (h + pad) < bound) :
    growPad fuel h pad bound = Except.ok pad := by
  cases fuel with
  | zero =>
    rw [growPad, if_neg hn]
    rfl
  | succ f =>
    rw [growPad, if_neg hn]
    rfl

/-- While no `int` value leaves its range, the loop raises the pad to what
the bound lacks, within a budget of that many iterations. -/
theorem growPad_eq (fuel : Nat) (h pad bound : Int)
    (hh : 0 ≤ h) (hp : -2147483648 ≤ pad) (hhp : h + pad < 2147483648)
    (hb : bound < 2147483648)
    (hf : (bound - (h + pad)).toNat ≤ fuel) :
    growPad fuel h pad bound = Except.ok (max pad (bound - h)) := by
  induction fuel generalizing pad with
  | zero =>
    have hw : wrap32 (h + pad) = h + pad := wrap32_of_range _ (by omega) hhp
    have hlt : ¬ (wrap32 (h + pad) < bound) := by rw [hw]; omega
    have hmax : max pad (bound - h) = pad := max_eq_left (by omega)
    rw [growPad_of_not_lt _ _ _ _ hlt, hmax]
  | succ f ih =>
    have hw : wrap32 (h + pad) = h + pad := wrap32_of_range _ (by omega) hhp
    rw [growPad, hw]
    by_cases hlt : h + pad < bound
    · rw [if_pos hlt]
      have hw1 : wrap32 (pad + 1) = pad + 1 := wrap32_of_range _ (by omega) (by omega)
      rw [hw1, ih (pad + 1) (by omega) (by omega) (by omega)]
      have h1 : max (pad + 1) (bound - h) = bound - h := max_eq_right (by omega)
      have h2 : max pad (bound - h) = bound - h := max_eq_right (by omega)
      rw [h1, h2]
    · rw [if_neg hlt]
      have hmax : max pad (bound - h) = pad := max_eq_left (by omega)
      rw [hmax]
      rfl

/-- A loop that ends within a budget ends with the same pad within every
larger budget. -/
theorem growPad_mono (fuel k : Nat) (h pad bound x : Int)
    (hx : growPad fuel h pad bound = Except.ok x) :
    growPad (fuel + k) h pad bound = Except.ok x := by
  induction fuel generalizing pad with
  | zero =>
    rw [growPad] at hx
    by_cases hlt : wrap32 (h + pad) < bound
    · rw [if_pos hlt] at hx
      cases hx
    · rw [if_neg hlt] at hx
      rw [growPad_of_not_lt _ _ _ _ hlt]
      exact hx
  | succ f ih =>
    rw [growPad] at hx
    by_cases hlt : wrap32 (h + pad) < bound
    · rw [if_pos hlt] at hx
      have e : f + 1 + k = (f + k) + 1 := by omega
      rw [e, growPad, if_pos hlt]
      exact ih _ hx
    · rw [if_neg hlt] at hx
      rw [growPad_of_not_lt _ _ _ _ hlt]
      exact hx

/-- The geometry that lines 115-137 produce within a budget is what they
produce within every larger budget. -/
theorem resolveGeometry_mono (fuel k : Nat) (b : Blob) (gp : Bool)
    (kh kw pt pl sh sw : Int) (g : Geometry)
    (h : resolveGeometry fuel b gp kh kw pt pl sh sw = Except.ok g) :
    resolveGeometry (fuel + k) b gp kh kw pt pl sh sw = Except.ok g := by
  unfold resolveGeometry at h ⊢
  cases he : outputExtents b kh kw pt pl sh sw with
  | error e =>
    rw [he] at h
    cases h
  | ok p =>
    obtain ⟨ho, wo⟩ := p
    rw [he] at h
    simp only [bind, Except.bind] at h ⊢
    cases hg1 : growPad fuel (wrap32 (b.height + pt)) pt
        (wrap32 (wrap32 (sh * wrap32 (ho - 1)) + kh)) with
    | error e =>
      rw [hg1] at h
      cases h
    | ok x =>
      rw [hg1] at h
      rw [growPad_mono fuel k _ _ _ _ hg1]
      simp only at h ⊢
      cases hg2 : growPad fuel (wrap32 (b.width + pl)) pl
          (wrap32 (wrap32 (sw * wrap32 (wo - 1)) + kw)) with
      | error e =>
        rw [hg2] at h
        cases h
      | ok y =>
        rw [hg2] at h
        rw [growPad_mono fuel k _ _ _ _ hg2]
        exact h


/-! ## Setup: validation -/

theorem CHECK_eq_ok_iff (cond : Prop) [Decidable cond] (c : Check) :
    CHECK cond c = Except.ok () ↔ cond := by
  unfold CHECK
  split_ifs with h
  · exact ⟨fun _ => h, fun _ => rfl⟩
  · constructor
    · intro hcon; cases hcon
    · intro hc; exact absurd hc h

theorem CHECK_of_true {cond : Prop} [Decidable cond] (c : Check) (h : cond) :
    CHECK cond c = Except.ok () := (CHECK_eq_ok_iff cond c).2 h

theorem CHECK_of_false {cond : Prop} [Decidable cond] (c : Check) (h : ¬ cond) :
    CHECK cond c = Except.error (Failure.check c) := by
  unfold CHECK
  rw [if_neg h]
  rfl

/-- The parameter checks pass exactly when the invariants hold. -/
theorem checkParameters_ok_iff (pp : PoolingParameter) (b : Blob) :
    checkParameters pp b = Except.ok () ↔
      (0 < kernelH pp b ∧ 0 < kernelW pp b
        ∧ (pp.global_pooling = true →
            padH pp = 0 ∧ padW pp = 0 ∧ strideH pp = 1 ∧ strideW pp = 1)
        ∧ ((padH pp ≠ 0 ∨ padW pp ≠ 0) →
            (pp.pool = PoolMethod.AVE ∨ pp.pool = PoolMethod.MAX)
              ∧ padH pp < kernelH pp b ∧ padW pp < kernelW pp b)) := by
  unfold checkParameters
  by_cases h1 : kernelH pp b > 0
  swap
  · rw [CHECK_of_false _ h1]
    constructor
    · intro hcon; cases hcon
    · intro hc; exact absurd hc.1 h1
  rw [CHECK_of_true _ h1]
  by_cases h2 : kernelW pp b > 0
  swap
  · rw [CHECK_of_false _ h2]
    constructor
    · intro hcon; cases hcon
    · intro hc; exact absurd hc.2.1 h2
  rw [CHECK_of_true _ h2]
  simp only [pure_bind, bind_pure_comp]
  by_cases hg : pp.global_pooling = true
  · by_cases h3 : padH pp = 0 ∧ padW pp = 0 ∧ strideH pp = 1 ∧ strideW pp = 1
    · have hnp : ¬ (padH pp ≠ 0 ∨ padW pp ≠ 0) := by
        rintro (h | h)
        · exact h h3.1
        · exact h h3.2.1
      simp only [hg, if_true, CHECK_of_true _ h3, if_neg hnp]
      constructor
      · intro _
        exact ⟨h1, h2, fun _ => h3, fun h => absurd h hnp⟩
      · intro _; rfl
    · simp only [hg, if_true, CHECK_of_false _ h3]
      constructor
      · intro hcon; cases hcon
      · intro hc; exact absurd (hc.2.2.1 trivial) h3
  · simp only [hg]
    by_cases hp : padH pp ≠ 0 ∨ padW pp ≠ 0
    · rw [if_pos hp]
      by_cases h4 : pp.pool = PoolMethod.AVE ∨ pp.pool = PoolMethod.MAX
      swap
      · rw [CHECK_of_false _ h4]
        constructor
        · intro hcon; cases hcon
        · intro hc; exact absurd (hc.2.2.2 hp).1 h4
      rw [CHECK_of_true _ h4]
      by_cases h5 : padH pp < kernelH pp b
      swap
      · rw [CHECK_of_false _ h5]
        constructor
        · intro hcon; cases hcon
        · intro hc; exact absurd (hc.2.2.2 hp).2.1 h5
      rw [CHECK_of_true _ h5]
      by_cases h6 : padW pp < kernelW pp b
      swap
      · rw [CHECK_of_false _ h6]
        constructor
        · intro hcon; cases hcon
        · intro hc; exact absurd (hc.2.2.2 hp).2.2 h6
      rw [CHECK_of_true _ h6]
      constructor
      · intro _
        exact ⟨h1, h2, fun h => Bool.noConfusion h, fun _ => ⟨h4, h5, h6⟩⟩
      · intro _; rfl
    · rw [if_neg hp]
      constructor
      · intro _
        exact ⟨h1, h2, fun h => Bool.noConfusion h, fun h => absurd h hp⟩
      · intro _; rfl


/-! ## Setup: geometry -/

theorem LayerSetUp_cons (fuel : Nat) (pp : PoolingParameter) (b : Blob) (bs : List Blob)
    (hpres : checkFieldPresence pp = Except.ok ())
    (hpar : checkParameters pp b = Except.ok ()) :
    LayerSetUp fuel pp (b :: bs) =
      resolveGeometry fuel b pp.global_pooling (kernelH pp b) (kernelW pp b)
        (padH pp) (padW pp) (strideH pp) (strideW pp) := by
  unfold LayerSetUp
  rw [hpres]
  simp only [pure_bind]
  rw [hpar]
  rfl

/-- When the field-presence checks pass, a failing parameter check is what
`LayerSetUp` reports. -/
theorem LayerSetUp_cons_of_error (fuel : Nat) (pp : PoolingParameter) (b : Blob)
    (bs : List Blob) (e : Failure)
    (hpres : checkFieldPresence pp = Except.ok ())
    (hpar : checkParameters pp b = Except.error e) :
    LayerSetUp fuel pp (b :: bs) = Except.error e := by
  unfold LayerSetUp
  rw [hpres]
  simp only [pure_bind]
  rw [hpar]
  rfl


/-- The geometry that `LayerSetUp` returns within a budget is what it returns
within every larger budget. -/
theorem LayerSetUp_mono (fuel k : Nat) (pp : PoolingParameter) (bottom : List Blob)
    (g : Geometry) (h : LayerSetUp fuel pp bottom = Except.ok g) :
    LayerSetUp (fuel + k) pp bottom = Except.ok g := by
  have hpres : checkFieldPresence pp = Except.ok () := by
    cases hp : checkFieldPresence pp with
    | error e =>
      unfold LayerSetUp at h
      rw [hp] at h
      cases h
    | ok u => rfl
  cases bottom with
  | nil =>
    unfold LayerSetUp at h
    rw [hpres] at h
    cases h
  | cons b bs =>
    have hpar : checkParameters pp b = Except.ok () := by
      cases hp : checkParameters pp b with
      | error e =>
        rw [LayerSetUp_cons_of_error fuel pp b bs e hpres hp] at h
        cases h
      | ok u => rfl
    rw [LayerSetUp_cons fuel pp b bs hpres hpar] at h
    rw [LayerSetUp_cons (fuel + k) pp b bs hpres hpar]
    exact resolveGeometry_mono fuel k b pp.global_pooling _ _ _ _ _ _ g h


/-- Kernel 5, stride 2147483647, no padding on a 10 x 10 input: the loop
bound `stride * (out - 1) + kernel = 2147483652` of lines 134 and 137 is not
a value of `int`; with its wrapped value `-2147483644` neither loop iterates
and the far pads stay 0, for every fuel. -/
theorem LayerSetUp_loop_bound_wraps :
    wrap32 (2147483647 * (2 - 1) + 5) = -2147483644
      ∧ ∀ fuel,
          LayerSetUp fuel (squareParam PoolMethod.MAX 5 0 2147483647) [blob4 1 1 10 10]
            = Except.ok { global_pooling_ := false, kernel_h_ := 5, kernel_w_ := 5,
                          pad_t_ := 0, pad_b_ := 0, pad_l_ := 0, pad_r_ := 0,
                          stride_h_ := 2147483647, stride_w_ := 2147483647,
                          height_out_ := 2, width_out_ := 2 } := by
  refine ⟨by decide, fun fuel => ?_⟩
  have h := LayerSetUp_mono 0 fuel (squareParam PoolMethod.MAX 5 0 2147483647)
    [blob4 1 1 10 10] _ rfl
  rw [Nat.zero_add] at h
  exact h


/-- The quotient of lines 115-118 for a numerator between `0` and `2 ^ 24`
and a stride of at least one: it is the integer ceiling quotient, which lies
between `0` and the numerator. -/
theorem ceilDiv_exact (n s : Int) (hn : 0 ≤ n) (hn24 : n ≤ 2 ^ 24) (hs : 1 ≤ s) :
    ceilDiv n s = Except.ok ((n + s - 1) / s)
      ∧ 0 ≤ (n + s - 1) / s ∧ (n + s - 1) / s ≤ n := by
  have h0 : 0 ≤ (n + s - 1) / s := Int.ediv_nonneg (by omega) (by omega)
  have h1 : (n + s - 1) / s ≤ n := by
    have hlt : (n + s - 1) / s < n + 1 := by
      apply Int.ediv_lt_of_lt_mul (by omega)
      have hns : n * 1 ≤ n * s := Int.mul_le_mul_of_nonneg_left hs hn
      have e : (n + 1) * s = n * s + s := by ring
      omega
    omega
  refine ⟨?_, h0, h1⟩
  unfold ceilDiv
  rw [ceilDivF32_exact n s hn hn24 hs]
  have hr : -2147483648 ≤ (n + s - 1) / s ∧ (n + s - 1) / s < 2147483648 := by
    have : (2 : Int) ^ 24 = 16777216 := by norm_num
    constructor <;> omega
  simp only [hr, and_self, if_true]
  rfl

/-- Lines 115-131 without padding: no clipping and no `CHECK_LT`. -/
theorem outputExtents_unpadded (b : Blob) (kh kw sh sw vh vw : Int)
    (hvh : ceilDiv (wrap32 (wrap32 (wrap32 (b.height + 0) + 0) - kh)) sh = Except.ok vh)
    (hvw : ceilDiv (wrap32 (wrap32 (wrap32 (b.width + 0) + 0) - kw)) sw = Except.ok vw) :
    outputExtents b kh kw 0 0 sh sw = Except.ok (wrap32 (vh + 1), wrap32 (vw + 1)) := by
  unfold outputExtents
  simp only [hvh, hvw]
  rfl

/-- Lines 115-137 without padding, in terms of the two quotients of lines
115-118. -/
theorem resolveGeometry_unpadded (fuel : Nat) (b : Blob) (gp : Bool)
    (kh kw sh sw vh vw : Int)
    (hvh : ceilDiv (wrap32 (wrap32 (wrap32 (b.height + 0) + 0) - kh)) sh = Except.ok vh)
    (hvw : ceilDiv (wrap32 (wrap32 (wrap32 (b.width + 0) + 0) - kw)) sw = Except.ok vw) :
    resolveGeometry fuel b gp kh kw 0 0 sh sw =
      (do
        let pad_b_ ← growPad fuel (wrap32 (b.height + 0)) 0
          (wrap32 (wrap32 (sh * wrap32 (wrap32 (vh + 1) - 1)) + kh))
        let pad_r_ ← growPad fuel (wrap32 (b.width + 0)) 0
          (wrap32 (wrap32 (sw * wrap32 (wrap32 (vw + 1) - 1)) + kw))
        pure { global_pooling_ := gp, kernel_h_ := kh, kernel_w_ := kw,
               pad_t_ := 0, pad_b_ := pad_b_, pad_l_ := 0, pad_r_ := pad_r_,
               stride_h_ := sh, stride_w_ := sw,
               height_out_ := wrap32 (vh + 1), width_out_ := wrap32 (vw + 1) }) := by
  unfold resolveGeometry
  rw [outputExtents_unpadded b kh kw sh sw vh vw hvh hvw]
  rfl

/-- One axis of lines 115-137 without padding, for a kernel between 1 and the
input extent `i`, a numerator of at most `2 ^ 24`, a stride of at least one
and a loop bound within the range of `int`: no `int` operation wraps, the
quotient is the integer ceiling quotient `v`, and the loop raises the far pad
from 0 to `s * v + k - i`, which is 0 exactly when the stride divides
`i - k`. -/
theorem unpadded_axis (fuel : Nat) (i k s : Int) (hk1 : 1 ≤ k) (hki : k ≤ i)
    (hn : i - k ≤ 2 ^ 24) (hs : 1 ≤ s)
    (hr : s * ((i - k + s - 1) / s) + k < 2 ^ 31) (hf : s ≤ fuel) :
    ceilDiv (wrap32 (wrap32 (wrap32 (i + 0) + 0) - k)) s = Except.ok ((i - k + s - 1) / s)
      ∧ wrap32 ((i - k + s - 1) / s + 1) = (i - k + s - 1) / s + 1
      ∧ growPad fuel (wrap32 (i + 0)) 0
          (wrap32 (wrap32 (s * wrap32 (wrap32 ((i - k + s - 1) / s + 1) - 1)) + k))
          = Except.ok (s * ((i - k + s - 1) / s) + k - i)
      ∧ (s * ((i - k + s - 1) / s) + k - i = 0 ↔ s ∣ (i - k)) := by
  obtain ⟨hcd, hv0, hvn⟩ := ceilDiv_exact (i - k) s (by omega) hn hs
  obtain ⟨hb1, hb2⟩ := ceil_mul_bounds (i - k) s hs
  have e24 : (2 : Int) ^ 24 = 16777216 := by norm_num
  have e31 : (2 : Int) ^ 31 = 2147483648 := by norm_num
  rw [e31] at hr
  generalize (i - k + s - 1) / s = v at hcd hv0 hvn hb1 hb2 hr ⊢
  have hsv : s * v = v * s := mul_comm s v
  have hi : i < 2147483648 := by omega
  have w1 : wrap32 i = i := wrap32_of_range _ (by omega) hi
  have w2 : wrap32 (i - k) = i - k := wrap32_of_range _ (by omega) (by omega)
  have w3 : wrap32 (v + 1) = v + 1 := wrap32_of_range _ (by omega) (by omega)
  have w4 : wrap32 (v + 1 - 1) = v := by
    rw [add_sub_cancel_right]
    exact wrap32_of_range _ (by omega) (by omega)
  have w5 : wrap32 (s * v) = s * v := wrap32_of_range _ (by omega) (by omega)
  have w6 : wrap32 (s * v + k) = s * v + k := wrap32_of_range _ (by omega) (by omega)
  simp only [add_zero, w1]
  rw [w2, w3, w4, w5, w6]
  refine ⟨hcd, rfl, ?_, ?_⟩
  · rw [growPad_eq fuel i 0 (s * v + k) (by omega) (by omega) (by omega) (by omega) (by omega)]
    rw [max_eq_right (by omega)]
  · constructor
    · intro h
      exact ⟨v, by omega⟩
    · rintro ⟨q, hq⟩
      have e1 : s * q = q * s := mul_comm s q
      have hqv : v * s = q * s := by
        have hvq : v = q := by
          have hlt1 : (v - q) * s < 1 * s := by
            have : (v - q) * s = v * s - q * s := by ring
            omega
          have hlt2 : -1 * s < (v - q) * s := by
            have : (v - q) * s = v * s - q * s := by ring
            omega
          have h1 := lt_of_mul_lt_mul_right hlt1 (by omega)
          have h2 := lt_of_mul_lt_mul_right hlt2 (by omega)
          omega
        rw [hvq]
      omega


/-! ## Floors and ceilings of rational quotients -/

theorem floor_div_cast (a s : Int) (hs : 0 < s) : ⌊(a : ℚ) / (s : ℚ)⌋ = a / s := by
  have hsq : (0 : ℚ) < (s : ℚ) := by exact_mod_cast hs
  rw [Int.floor_eq_iff]
  constructor
  · rw [le_div_iff₀ hsq]
    have := Int.ediv_mul_le a (show s ≠ 0 by omega)
    exact_mod_cast this
  · rw [div_lt_iff₀ hsq]
    have := Int.lt_ediv_add_one_mul_self a hs
    exact_mod_cast this

theorem ceil_div_cast (a s : Int) (hs : 0 < s) : ⌈(a : ℚ) / (s : ℚ)⌉ = (a + s - 1) / s := by
  have hsq : (0 : ℚ) < (s : ℚ) := by exact_mod_cast hs
  have hb := ceil_mul_bounds a s (by omega)
  rw [Int.ceil_eq_iff]
  constructor
  · rw [lt_div_iff₀ hsq]
    have h1 : ((a + s - 1) / s - 1) * s < a := by
      have : ((a + s - 1) / s - 1) * s = (a + s - 1) / s * s - s := by ring
      omega
    exact_mod_cast h1
  · rw [div_le_iff₀ hsq]
    exact_mod_cast hb.1


/-! ## Engine selection -/

/-- The candidates that the loop of lines 235-245 (374-384) passes over
before it stops: the leading candidates for which construction throws. -/
theorem find_index (acc : Engine → Bool) (ep : List Engine) (e : Engine)
    (h : ep.find? acc = some e) :
    ep[(ep.takeWhile (fun x => !acc x)).length]? = some e := by
  induction ep with
  | nil => simp at h
  | cons a rest ih =>
    by_cases ha : acc a = true
    · simp only [List.find?_cons, ha] at h
      simp [List.takeWhile_cons, ha]
      exact Option.some.inj h
    · have ha' : acc a = false := by simpa using ha
      simp only [List.find?_cons, ha'] at h
      simp [List.takeWhile_cons, ha']
      exact ih h

theorem find_none_index (acc : Engine → Bool) (ep : List Engine)
    (h : ep.find? acc = none) :
    ep[(ep.takeWhile (fun x => !acc x)).length]? = none := by
  induction ep with
  | nil => simp
  | cons a rest ih =>
    by_cases ha : acc a = true
    · simp [List.find?_cons, ha] at h
    · have ha' : acc a = false := by simpa using ha
      simp only [List.find?_cons, ha'] at h
      have := ih h
      simp only [List.getElem?_eq_none_iff] at this
      simp [List.takeWhile_cons, ha']
      exact this

/-- The loop of lines 235-245 in closed form: it passes over the leading
rejecting candidates and binds `poolingFwd_pd` to the first accepting one,
if there is one. -/
theorem fwdEngineLoop_eq (B : Backend) (desc : PoolingFwdDesc) (ep : List Engine) (i : Nat)
    (L : Layer) :
    fwdEngineLoop B desc ep i L =
      (i + (ep.takeWhile (fun x => !B.fwdAccepts desc x)).length,
        { L with
          poolingFwd_pd :=
            match ep.find? (B.fwdAccepts desc) with
            | some e => some ⟨desc, e⟩
            | none => L.poolingFwd_pd,
          trace := L.trace
            ++ (ep.takeWhile (fun x => !B.fwdAccepts desc x)).map
                (fun x => Event.fwd_primitive_desc x false)
            ++ (match ep.find? (B.fwdAccepts desc) with
                | some e => [Event.fwd_primitive_desc e true]
                | none => []) }) := by
  induction ep generalizing i L with
  | nil => simp [fwdEngineLoop]
  | cons a rest ih =>
    by_cases ha : B.fwdAccepts desc a = true
    · simp [fwdEngineLoop, ha, Layer.log]
    · have ha' : B.fwdAccepts desc a = false := by simpa using ha
      rw [fwdEngineLoop, if_neg ha, ih]
      simp [ha', Layer.log, Nat.add_assoc, Nat.add_comm 1]

theorem find_of_split (acc : Engine → Bool) (pre : List Engine) (e : Engine)
    (post : List Engine) (hpre : ∀ x ∈ pre, acc x = false) (he : acc e = true) :
    (pre ++ e :: post).find? acc = some e
      ∧ (pre ++ e :: post).takeWhile (fun x => !acc x) = pre := by
  induction pre with
  | nil => simp [List.find?_cons, List.takeWhile_cons, he]
  | cons a rest ih =>
    have ha : acc a = false := hpre a (List.mem_cons_self _ _)
    have ih' := ih (fun x hx => hpre x (List.mem_cons_of_mem _ hx))
    simp [List.find?_cons, List.takeWhile_cons, ha, ih'.1, ih'.2]

theorem find_none_of_all_reject (acc : Engine → Bool) (ep : List Engine) :
    ep.find? acc = none ↔ ∀ x ∈ ep, acc x = false := by
  simp [List.find?_eq_none]

theorem takeWhile_of_all_reject (acc : Engine → Bool) (ep : List Engine)
    (h : ∀ x ∈ ep, acc x = false) : ep.takeWhile (fun x => !acc x) = ep := by
  rw [List.takeWhile_eq_self_iff]
  intro x hx
  simp [h x hx]

/-- The loop of lines 374-384 in closed form, given a forward primitive
descriptor. -/
theorem bwdEngineLoop_eq (B : Backend) (desc : PoolingBwdDesc) (ep : List Engine) (i : Nat)
    (L : Layer) (fwd_pd : PoolingFwdPD) (hf : L.poolingFwd_pd = some fwd_pd) :
    bwdEngineLoop B desc ep i L = Except.ok
      (i + (ep.takeWhile (fun x => !B.bwdAccepts desc x fwd_pd)).length,
        { L with
          poolingBwd_pd :=
            match ep.find? (fun x => B.bwdAccepts desc x fwd_pd) with
            | some e => some ⟨desc, e, fwd_pd⟩
            | none => L.poolingBwd_pd,
          trace := L.trace
            ++ (ep.takeWhile (fun x => !B.bwdAccepts desc x fwd_pd)).map
                (fun x => Event.bwd_primitive_desc x false)
            ++ (match ep.find? (fun x => B.bwdAccepts desc x fwd_pd) with
                | some e => [Event.bwd_primitive_desc e true]
                | none => []) }) := by
  induction ep generalizing i L with
  | nil => simp [bwdEngineLoop, pure, Except.pure]
  | cons a rest ih =>
    by_cases ha : B.bwdAccepts desc a fwd_pd = true
    · simp [bwdEngineLoop, hf, ha, Layer.log, pure, Except.pure]
    · have ha' : B.bwdAccepts desc a fwd_pd = false := by simpa using ha
      rw [bwdEngineLoop]
      simp only [hf, if_neg ha]
      rw [ih (i + 1) (L.log (Event.bwd_primitive_desc a false)) hf]
      simp [ha', Layer.log, hf, Nat.add_assoc, Nat.add_comm 1]

theorem split_of_find (acc : Engine → Bool) (ep : List Engine) (e : Engine)
    (h : ep.find? acc = some e) :
    ∃ post, ep = ep.takeWhile (fun x => !acc x) ++ e :: post
      ∧ (∀ x ∈ ep.takeWhile (fun x => !acc x), acc x = false) ∧ acc e = true := by
  induction ep with
  | nil => simp at h
  | cons a rest ih =>
    by_cases ha : acc a = true
    · simp only [List.find?_cons, ha] at h
      have hae : a = e := Option.some.inj h
      subst hae
      exact ⟨rest, by simp [List.takeWhile_cons, ha], by simp [List.takeWhile_cons, ha], ha⟩
    · have ha' : acc a = false := by simpa using ha
      simp only [List.find?_cons, ha'] at h
      obtain ⟨post, h1, h2, h3⟩ := ih h
      refine ⟨post, ?_, ?_, h3⟩
      · simp only [List.takeWhile_cons, ha', Bool.not_false, if_true, List.cons_append]
        rw [← h1]
      · intro x hx
        simp only [List.takeWhile_cons, ha', Bool.not_false, if_true, List.mem_cons] at hx
        rcases hx with rfl | hx
        · exact ha'
        · exact h2 x hx


theorem ok_bind {ε α β : Type} (a : α) (f : α → Except ε β) : (Except.ok a >>= f) = f a := rfl

theorem InitPoolingFwd_selected (B : Backend) (L : Layer) (b : Blob) (bs : List Blob)
    (t : Blob) (ts : List Blob) (alg : Algorithm) (e : Engine)
    (halg : poolingAlgorithm L = Except.ok alg)
    (hfind : (candidateEngines B L).find? (B.fwdAccepts (poolingFwdDesc L alg b)) = some e) :
    InitPoolingFwd Dtype.float B L (b :: bs) (t :: ts)
      = Except.ok (fwdReady B L b (t :: ts) alg
          ((candidateEngines B L).takeWhile (fun x => !B.fwdAccepts (poolingFwdDesc L alg b) x))
          e) := by
  have hidx := find_index _ _ _ hfind
  unfold InitPoolingFwd
  simp only [halg, ok_bind, pure_bind, fwdEngineLoop_eq, hfind, Nat.zero_add, hidx]
  unfold fwdReady
  by_cases hw : propagationOf L = PropKind.forward_training ∧ alg ≠ Algorithm.pooling_avg
  · simp only [if_pos hw]
    rfl
  · simp only [if_neg hw]
    rfl

theorem InitPoolingFwd_rejected (B : Backend) (L : Layer) (b : Blob) (bs : List Blob)
    (top : List Blob) (alg : Algorithm)
    (halg : poolingAlgorithm L = Except.ok alg)
    (hnull : L.poolingFwd_pd = none)
    (hfind : (candidateEngines B L).find? (B.fwdAccepts (poolingFwdDesc L alg b)) = none) :
    InitPoolingFwd Dtype.float B L (b :: bs) top
      = Except.error (Failure.check Check.poolingFwdPd,
          { L with trace := L.trace
              ++ List.map (fun x => Event.fwd_primitive_desc x false) (candidateEngines B L) })
      := by
  have hall := (find_none_of_all_reject _ _).1 hfind
  have htw := takeWhile_of_all_reject _ _ hall
  unfold InitPoolingFwd
  simp only [halg, ok_bind, pure_bind, fwdEngineLoop_eq, hfind, Nat.zero_add, htw, hnull,
    List.append_nil]
  rfl

/-- When the forward loop finds no accepting engine although a descriptor
was present on entry, the lookup of line 248 is past the end of the list. -/
theorem InitPoolingFwd_rejected_stale (B : Backend) (L : Layer) (b : Blob) (bs : List Blob)
    (top : List Blob) (alg : Algorithm) (old : PoolingFwdPD)
    (halg : poolingAlgorithm L = Except.ok alg)
    (hold : L.poolingFwd_pd = some old)
    (hfind : (candidateEngines B L).find? (B.fwdAccepts (poolingFwdDesc L alg b)) = none) :
    ∃ L', InitPoolingFwd Dtype.float B L (b :: bs) top
      = Except.error (Failure.undefinedBehaviour, L') := by
  have hidx := find_none_index _ _ hfind
  unfold InitPoolingFwd
  simp only [halg, ok_bind, pure_bind, fwdEngineLoop_eq, hfind, Nat.zero_add, hold, hidx]
  exact ⟨_, rfl⟩

/-- The workspace that `InitPoolingBwd` hands to the backward primitive
(lines 405-411) when it gets that far. -/
theorem InitPoolingBwd_selected (B : Backend) (L : Layer) (t : Blob) (ts : List Blob)
    (pdown : List Bool) (b : Blob) (bs : List Blob) (alg : Algorithm) (fwd_pd : PoolingFwdPD)
    (e : Engine) (w : Option Memory)
    (halg : poolingAlgorithm L = Except.ok alg)
    (hf : L.poolingFwd_pd = some fwd_pd)
    (hfind : (candidateEngines B L).find?
      (fun x => B.bwdAccepts (poolingBwdDesc L alg t) x fwd_pd) = some e)
    (hw : (alg = Algorithm.pooling_avg ∧ w = none)
      ∨ (alg ≠ Algorithm.pooling_avg ∧ w ≠ none ∧ L.indices_memory = w)) :
    InitPoolingBwd Dtype.float B L (t :: ts) pdown (b :: bs)
      = Except.ok (bwdReady B L t alg fwd_pd w
          ((candidateEngines B L).takeWhile
            (fun x => !B.bwdAccepts (poolingBwdDesc L alg t) x fwd_pd)) e) := by
  have hidx := find_index _ _ _ hfind
  rcases hw with ⟨ha, hw⟩ | ⟨ha, hw, hm⟩
  · have hna : ¬ (alg ≠ Algorithm.pooling_avg) := fun h => h ha
    unfold InitPoolingBwd
    simp only [halg, ok_bind, pure_bind, bwdEngineLoop_eq B _ _ 0 L fwd_pd hf, hfind,
      Nat.zero_add, hidx, if_neg hna, hw]
    rfl
  · cases w with
    | none => exact absurd rfl hw
    | some m =>
      unfold InitPoolingBwd bwdReady
      simp only [halg, ok_bind, pure_bind, bwdEngineLoop_eq B _ _ 0 L fwd_pd hf, hfind,
        Nat.zero_add, hidx, if_pos ha, hm]
      rfl

/-- With an algorithm other than average and no index mask, `InitPoolingBwd`
dereferences the null `indices_memory` at line 407. -/
theorem InitPoolingBwd_null_mask (B : Backend) (L : Layer) (t : Blob) (ts : List Blob)
    (pdown : List Bool) (b : Blob) (bs : List Blob) (alg : Algorithm) (fwd_pd : PoolingFwdPD)
    (e : Engine)
    (halg : poolingAlgorithm L = Except.ok alg)
    (hf : L.poolingFwd_pd = some fwd_pd)
    (hfind : (candidateEngines B L).find?
      (fun x => B.bwdAccepts (poolingBwdDesc L alg t) x fwd_pd) = some e)
    (ha : alg ≠ Algorithm.pooling_avg) (hm : L.indices_memory = none) :
    ∃ L', InitPoolingBwd Dtype.float B L (t :: ts) pdown (b :: bs)
      = Except.error (Failure.undefinedBehaviour, L') ∧ L'.poolingBwd = L.poolingBwd := by
  have hidx := find_index _ _ _ hfind
  unfold InitPoolingBwd
  simp only [halg, ok_bind, pure_bind, bwdEngineLoop_eq B _ _ 0 L fwd_pd hf, hfind,
    Nat.zero_add, hidx, if_pos ha, hm]
  exact ⟨_, rfl, rfl⟩

theorem InitPoolingBwd_rejected (B : Backend) (L : Layer) (t : Blob) (ts : List Blob)
    (pdown : List Bool) (bottom : List Blob) (alg : Algorithm) (fwd_pd : PoolingFwdPD)
    (halg : poolingAlgorithm L = Except.ok alg)
    (hf : L.poolingFwd_pd = some fwd_pd)
    (hnull : L.poolingBwd_pd = none)
    (hfind : (candidateEngines B L).find?
      (fun x => B.bwdAccepts (poolingBwdDesc L alg t) x fwd_pd) = none) :
    InitPoolingBwd Dtype.float B L (t :: ts) pdown bottom
      = Except.error (Failure.check Check.poolingBwdPd,
          { L with trace := L.trace
              ++ List.map (fun x => Event.bwd_primitive_desc x false) (candidateEngines B L) })
      := by
  have hall := (find_none_of_all_reject _ _).1 hfind
  have htw := takeWhile_of_all_reject _ _ hall
  unfold InitPoolingBwd
  simp only [halg, ok_bind, pure_bind, bwdEngineLoop_eq B _ _ 0 L fwd_pd hf, hfind,
    Nat.zero_add, htw, hnull, List.append_nil]
  rfl


/-! ## What a successful initialisation implies -/

theorem error_bind {ε α β : Type} (x : ε) (f : α → Except ε β) :
    ((Except.error x : Except ε α) >>= f) = Except.error x := rfl

theorem InitPoolingFwd_ok_inv (D : Dtype) (B : Backend) (L : Layer) (bottom top : List Blob)
    (L1 : Layer) (h : InitPoolingFwd D B L bottom top = Except.ok L1) :
    ∃ alg b bs t ts e, D = Dtype.float ∧ poolingAlgorithm L = Except.ok alg
      ∧ bottom = b :: bs ∧ top = t :: ts
      ∧ (candidateEngines B L).find? (B.fwdAccepts (poolingFwdDesc L alg b)) = some e
      ∧ L1 = fwdReady B L b (t :: ts) alg
          ((candidateEngines B L).takeWhile (fun x => !B.fwdAccepts (poolingFwdDesc L alg b) x))
          e := by
  cases D with
  | double => exact absurd h (by intro hc; cases hc)
  | float =>
    cases halg : poolingAlgorithm L with
    | error x =>
      exfalso
      unfold InitPoolingFwd at h
      simp only [halg, error_bind] at h
      cases h
    | ok alg =>
      cases bottom with
      | nil =>
        exfalso
        unfold InitPoolingFwd at h
        simp only [halg, ok_bind] at h
        cases h
      | cons b bs =>
        cases hfind : (candidateEngines B L).find? (B.fwdAccepts (poolingFwdDesc L alg b)) with
        | none =>
          exfalso
          cases hold : L.poolingFwd_pd with
          | none =>
            rw [InitPoolingFwd_rejected B L b bs top alg halg hold hfind] at h
            cases h
          | some old =>
            obtain ⟨L', hL'⟩ := InitPoolingFwd_rejected_stale B L b bs top alg old halg hold hfind
            rw [hL'] at h
            cases h
        | some e =>
          cases top with
          | nil =>
            exfalso
            have hidx := find_index _ _ _ hfind
            unfold InitPoolingFwd at h
            simp only [halg, ok_bind, pure_bind, fwdEngineLoop_eq, hfind, Nat.zero_add, hidx] at h
            cases h
          | cons t ts =>
            rw [InitPoolingFwd_selected B L b bs t ts alg e halg hfind] at h
            exact ⟨alg, b, bs, t, ts, e, rfl, rfl, rfl, rfl, hfind, (Except.ok.inj h).symm⟩

theorem InitPoolingBwd_ok_inv (D : Dtype) (B : Backend) (L : Layer) (top : List Blob)
    (pdown : List Bool) (bottom : List Blob) (L2 : Layer)
    (h : InitPoolingBwd D B L top pdown bottom = Except.ok L2) :
    ∃ alg t ts b bs fwd_pd e w, D = Dtype.float ∧ poolingAlgorithm L = Except.ok alg
      ∧ top = t :: ts ∧ bottom = b :: bs
      ∧ L.poolingFwd_pd = some fwd_pd
      ∧ (candidateEngines B L).find?
          (fun x => B.bwdAccepts (poolingBwdDesc L alg t) x fwd_pd) = some e
      ∧ ((alg = Algorithm.pooling_avg ∧ w = none)
          ∨ (alg ≠ Algorithm.pooling_avg ∧ w ≠ none ∧ L.indices_memory = w))
      ∧ L2 = bwdReady B L t alg fwd_pd w
          ((candidateEngines B L).takeWhile
            (fun x => !B.bwdAccepts (poolingBwdDesc L alg t) x fwd_pd)) e := by
  cases D with
  | double => exact absurd h (by intro hc; cases hc)
  | float =>
    cases halg : poolingAlgorithm L with
    | error x =>
      exfalso
      unfold InitPoolingBwd at h
      simp only [halg, error_bind] at h
      cases h
    | ok alg =>
      cases top with
      | nil =>
        exfalso
        unfold InitPoolingBwd at h
        simp only [halg, ok_bind] at h
        cases h
      | cons t ts =>
        cases hf : L.poolingFwd_pd with
        | none =>
          exfalso
          unfold InitPoolingBwd at h
          simp only [halg, ok_bind, pure_bind] at h
          cases hep : candidateEngines B L with
          | nil =>
            simp only [hep, bwdEngineLoop, pure_bind] at h
            cases hb : L.poolingBwd_pd with
            | none =>
              simp only [hb] at h
              cases h
            | some old =>
              simp only [hb] at h
              cases h
          | cons a rest =>
            simp only [hep, bwdEngineLoop, hf] at h
            cases h
        | some fwd_pd =>
          cases hfind : (candidateEngines B L).find?
              (fun x => B.bwdAccepts (poolingBwdDesc L alg t) x fwd_pd) with
          | none =>
            exfalso
            cases hb : L.poolingBwd_pd with
            | none =>
              rw [InitPoolingBwd_rejected B L t ts pdown bottom alg fwd_pd halg hf hb hfind] at h
              cases h
            | some old =>
              have hidx := find_none_index _ _ hfind
              unfold InitPoolingBwd at h
              simp only [halg, ok_bind, pure_bind, bwdEngineLoop_eq B _ _ 0 L fwd_pd hf, hfind,
                Nat.zero_add, hidx, hb] at h
              cases h
          | some e =>
            cases bottom with
            | nil =>
              exfalso
              have hidx := find_index _ _ _ hfind
              unfold InitPoolingBwd at h
              simp only [halg, ok_bind, pure_bind, bwdEngineLoop_eq B _ _ 0 L fwd_pd hf, hfind,
                Nat.zero_add, hidx] at h
              cases h
            | cons b bs =>
              by_cases ha : alg = Algorithm.pooling_avg
              · have hw : (alg = Algorithm.pooling_avg ∧ (none : Option Memory) = none)
                    ∨ (alg ≠ Algorithm.pooling_avg ∧ (none : Option Memory) ≠ none
                        ∧ L.indices_memory = none) := Or.inl ⟨ha, rfl⟩
                rw [InitPoolingBwd_selected B L t ts pdown b bs alg fwd_pd e none halg hf hfind
                  hw] at h
                exact ⟨alg, t, ts, b, bs, fwd_pd, e, none, rfl, rfl, rfl, rfl, rfl, hfind, hw,
                  (Except.ok.inj h).symm⟩
              · cases hm : L.indices_memory with
                | none =>
                  exfalso
                  obtain ⟨L', hL', -⟩ := InitPoolingBwd_null_mask B L t ts pdown b bs alg fwd_pd e
                    halg hf hfind ha hm
                  rw [hL'] at h
                  cases h
                | some m =>
                  have hw : (alg = Algorithm.pooling_avg ∧ (some m : Option Memory) = none)
                      ∨ (alg ≠ Algorithm.pooling_avg ∧ (some m : Option Memory) ≠ none
                          ∧ L.indices_memory = some m) :=
                    Or.inr ⟨ha, by simp, hm⟩
                  rw [InitPoolingBwd_selected B L t ts pdown b bs alg fwd_pd e (some m) halg hf
                    hfind hw] at h
                  exact ⟨alg, t, ts, b, bs, fwd_pd, e, some m, rfl, rfl, rfl, rfl, rfl, hfind,
                    Or.inr ⟨ha, by simp, rfl⟩, (Except.ok.inj h).symm⟩


/-! ## Claims about `LayerSetUp` -/

/-- C1 (failing input).  Kernel 2, pad 1, stride 1 on an input of height
`33554438 = 2 ^ 25 + 6` satisfies every condition of the claim, and every
`int` value of lines 115-131 is within range, yet `LayerSetUp` produces no
geometry: the numerator `33554438` of line 115 is rounded to the float
`33554440`, the clipped extent is `33554440`, and the `CHECK_LT` of line 129
compares `33554439 < 33554439` and aborts. -/
theorem C1_setup_aborts_at_large_height :
    checkFieldPresence (squareParam PoolMethod.MAX 2 1 1) = Except.ok ()
      ∧ checkParameters (squareParam PoolMethod.MAX 2 1 1) (blob4 1 1 33554438 1) = Except.ok ()
      ∧ kernelH (squareParam PoolMethod.MAX 2 1 1) (blob4 1 1 33554438 1) = 2
      ∧ padH (squareParam PoolMethod.MAX 2 1 1) = 1
      ∧ strideH (squareParam PoolMethod.MAX 2 1 1) = 1
      ∧ ceilDivF32 (33554438 + 1 + 1 - 2) 1 = some 33554440
      ∧ ∀ fuel, LayerSetUp fuel (squareParam PoolMethod.MAX 2 1 1) [blob4 1 1 33554438 1]
          = Except.error (Failure.check Check.lastPoolingInsideH) :=
  ⟨rfl, rfl, rfl, rfl, rfl, by decide, fun _ => rfl⟩


/-- C2 (counterexample).  Kernel 2, stride 3, no padding on a 4 x 4 input:
`LayerSetUp` yields the output extent `ceil(2 / 3) + 1 = 2` on each axis, not
`floor(2 / 3) + 1 = 1`, and the loops of lines 134 and 137 grow `pad_b_` and
`pad_r_` from 0 to 1, one iteration each (with no fuel the first loop cannot
finish). -/
theorem C2_counterexample_stride_not_dividing :
    checkFieldPresence (squareParam PoolMethod.MAX 2 0 3) = Except.ok ()
      ∧ checkParameters (squareParam PoolMethod.MAX 2 0 3) (blob4 1 1 4 4) = Except.ok ()
      ∧ padH (squareParam PoolMethod.MAX 2 0 3) = 0
      ∧ padW (squareParam PoolMethod.MAX 2 0 3) = 0
      ∧ (∀ fuel, 1 ≤ fuel →
          LayerSetUp fuel (squareParam PoolMethod.MAX 2 0 3) [blob4 1 1 4 4]
            = Except.ok { global_pooling_ := false, kernel_h_ := 2, kernel_w_ := 2,
                          pad_t_ := 0, pad_b_ := 1, pad_l_ := 0, pad_r_ := 1,
                          stride_h_ := 3, stride_w_ := 3, height_out_ := 2, width_out_ := 2 })
      ∧ LayerSetUp 0 (squareParam PoolMethod.MAX 2 0 3) [blob4 1 1 4 4]
          = Except.error Failure.outOfFuel
      ∧ ⌊((4 - 2 : Int) : ℚ) / ((3 : Int) : ℚ)⌋ + 1 = 1 := by
  refine ⟨rfl, rfl, rfl, rfl, fun fuel hfuel => ?_, rfl, ?_⟩
  · have h := LayerSetUp_mono 1 (fuel - 1) (squareParam PoolMethod.MAX 2 0 3) [blob4 1 1 4 4] _
      rfl
    have e : 1 + (fuel - 1) = fuel := by omega
    rw [e] at h
    exact h
  · rw [floor_div_cast _ _ (by norm_num)]
    decide

/-- C2 (amended).  With zero padding, kernel <= in, strides >= 1,
in - kernel <= 2 ^ 24 and a loop bound `stride * ceil((in - kernel) / stride)
+ kernel` below `2 ^ 31` on each axis (so that no `int` value of lines
115-137 leaves its range), `LayerSetUp` yields the output extent
`ceil((in - kernel) / stride) + 1` and grows the far pad from 0 to
`stride * (out - 1) + kernel - in`; the far pad stays 0 exactly when the
stride divides `in - kernel`, and then the output extent is
`floor((in - kernel) / stride) + 1`. -/
theorem C2_zero_padding_geometry (fuel : Nat) (pp : PoolingParameter) (b : Blob)
    (bs : List Blob)
    (hpres : checkFieldPresence pp = Except.ok ())
    (hpar : checkParameters pp b = Except.ok ())
    (hp0 : padH pp = 0) (hp1 : padW pp = 0)
    (hsh : 1 ≤ strideH pp) (hsw : 1 ≤ strideW pp)
    (hkh : kernelH pp b ≤ b.height) (hkw : kernelW pp b ≤ b.width)
    (hnh : b.height - kernelH pp b ≤ 2 ^ 24) (hnw : b.width - kernelW pp b ≤ 2 ^ 24)
    (hrh : strideH pp * ((b.height - kernelH pp b + strideH pp - 1) / strideH pp)
      + kernelH pp b < 2 ^ 31)
    (hrw : strideW pp * ((b.width - kernelW pp b + strideW pp - 1) / strideW pp)
      + kernelW pp b < 2 ^ 31)
    (hfh : strideH pp ≤ fuel) (hfw : strideW pp ≤ fuel) :
    ∃ g, LayerSetUp fuel pp (b :: bs) = Except.ok g
      ∧ g.pad_t_ = 0 ∧ g.pad_l_ = 0
      ∧ g.height_out_ = ⌈((b.height - kernelH pp b : Int) : ℚ) / (strideH pp : ℚ)⌉ + 1
      ∧ g.width_out_ = ⌈((b.width - kernelW pp b : Int) : ℚ) / (strideW pp : ℚ)⌉ + 1
      ∧ g.pad_b_ = strideH pp * (g.height_out_ - 1) + kernelH pp b - b.height
      ∧ g.pad_r_ = strideW pp * (g.width_out_ - 1) + kernelW pp b - b.width
      ∧ (g.pad_b_ = 0 ↔ strideH pp ∣ (b.height - kernelH pp b))
      ∧ (g.pad_r_ = 0 ↔ strideW pp ∣ (b.width - kernelW pp b))
      ∧ (g.pad_b_ = 0 →
          g.height_out_ = ⌊((b.height - kernelH pp b : Int) : ℚ) / (strideH pp : ℚ)⌋ + 1)
      ∧ (g.pad_r_ = 0 →
          g.width_out_ = ⌊((b.width - kernelW pp b : Int) : ℚ) / (strideW pp : ℚ)⌋ + 1) := by
  obtain ⟨hk1, hk2, -, -⟩ := (checkParameters_ok_iff pp b).1 hpar
  obtain ⟨a1, a2, a3, a4⟩ := unpadded_axis fuel b.height (kernelH pp b) (strideH pp)
    (by omega) hkh hnh hsh hrh hfh
  obtain ⟨b1, b2, b3, b4⟩ := unpadded_axis fuel b.width (kernelW pp b) (strideW pp)
    (by omega) hkw hnw hsw hrw hfw
  have hres := resolveGeometry_unpadded fuel b pp.global_pooling (kernelH pp b) (kernelW pp b)
    (strideH pp) (strideW pp) _ _ a1 b1
  rw [a3, b3, a2, b2] at hres
  have hok : LayerSetUp fuel pp (b :: bs) = Except.ok
      { global_pooling_ := pp.global_pooling,
        kernel_h_ := kernelH pp b, kernel_w_ := kernelW pp b,
        pad_t_ := 0,
        pad_b_ := strideH pp * ((b.height - kernelH pp b + strideH pp - 1) / strideH pp)
          + kernelH pp b - b.height,
        pad_l_ := 0,
        pad_r_ := strideW pp * ((b.width - kernelW pp b + strideW pp - 1) / strideW pp)
          + kernelW pp b - b.width,
        stride_h_ := strideH pp, stride_w_ := strideW pp,
        height_out_ := (b.height - kernelH pp b + strideH pp - 1) / strideH pp + 1,
        width_out_ := (b.width - kernelW pp b + strideW pp - 1) / strideW pp + 1 } := by
    rw [LayerSetUp_cons fuel pp b bs hpres hpar, hp0, hp1, hres]
    rfl
  -- a zero far pad: the floor and the ceiling quotient agree
  have efl : ∀ i k s : Int, 1 ≤ s → s ∣ (i - k) →
      ⌊((i - k : Int) : ℚ) / (s : ℚ)⌋ = (i - k + s - 1) / s := by
    rintro i k s hs ⟨q, hq⟩
    rw [floor_div_cast _ _ (by omega), hq, Int.mul_ediv_cancel_left _ (by omega)]
    symm
    apply ediv_eq_of_bounds _ _ _ (by omega)
    · rw [mul_comm]; omega
    · rw [mul_comm]; omega
  refine ⟨_, hok, rfl, rfl, ?_, ?_, ?_, ?_, a4, b4, ?_, ?_⟩
  · show _ + 1 = _ + 1
    rw [ceil_div_cast _ _ (by omega)]
  · show _ + 1 = _ + 1
    rw [ceil_div_cast _ _ (by omega)]
  · show _ = strideH pp * (_ + 1 - 1) + _ - _
    rw [add_sub_cancel_right]
  · show _ = strideW pp * (_ + 1 - 1) + _ - _
    rw [add_sub_cancel_right]
  · intro h0
    show _ + 1 = _ + 1
    rw [efl _ _ _ hsh (a4.1 h0)]
  · intro h0
    show _ + 1 = _ + 1
    rw [efl _ _ _ hsw (b4.1 h0)]

/-- C2 (witness).  Kernel 2, stride 2, no padding on a 4 x 4 input. -/
theorem C2_witness_kernel2_stride2 :
    ∃ g, LayerSetUp 2 (squareParam PoolMethod.MAX 2 0 2) (blob4 1 1 4 4 :: []) = Except.ok g
      ∧ g.pad_t_ = 0 ∧ g.pad_l_ = 0
      ∧ g.height_out_ = ⌈(((blob4 1 1 4 4).height
            - kernelH (squareParam PoolMethod.MAX 2 0 2) (blob4 1 1 4 4) : Int) : ℚ)
          / (strideH (squareParam PoolMethod.MAX 2 0 2) : ℚ)⌉ + 1
      ∧ g.width_out_ = ⌈(((blob4 1 1 4 4).width
            - kernelW (squareParam PoolMethod.MAX 2 0 2) (blob4 1 1 4 4) : Int) : ℚ)
          / (strideW (squareParam PoolMethod.MAX 2 0 2) : ℚ)⌉ + 1
      ∧ g.pad_b_ = strideH (squareParam PoolMethod.MAX 2 0 2) * (g.height_out_ - 1)
          + kernelH (squareParam PoolMethod.MAX 2 0 2) (blob4 1 1 4 4) - (blob4 1 1 4 4).height
      ∧ g.pad_r_ = strideW (squareParam PoolMethod.MAX 2 0 2) * (g.width_out_ - 1)
          + kernelW (squareParam PoolMethod.MAX 2 0 2) (blob4 1 1 4 4) - (blob4 1 1 4 4).width
      ∧ (g.pad_b_ = 0 ↔ strideH (squareParam PoolMethod.MAX 2 0 2)
          ∣ ((blob4 1 1 4 4).height - kernelH (squareParam PoolMethod.MAX 2 0 2) (blob4 1 1 4 4)))
      ∧ (g.pad_r_ = 0 ↔ strideW (squareParam PoolMethod.MAX 2 0 2)
          ∣ ((blob4 1 1 4 4).width - kernelW (squareParam PoolMethod.MAX 2 0 2) (blob4 1 1 4 4)))
      ∧ (g.pad_b_ = 0 →
          g.height_out_ = ⌊(((blob4 1 1 4 4).height
              - kernelH (squareParam PoolMethod.MAX 2 0 2) (blob4 1 1 4 4) : Int) : ℚ)
            / (strideH (squareParam PoolMethod.MAX 2 0 2) : ℚ)⌋ + 1)
      ∧ (g.pad_r_ = 0 →
          g.width_out_ = ⌊(((blob4 1 1 4 4).width
              - kernelW (squareParam PoolMethod.MAX 2 0 2) (blob4 1 1 4 4) : Int) : ℚ)
            / (strideW (squareParam PoolMethod.MAX 2 0 2) : ℚ)⌋ + 1) :=
  C2_zero_padding_geometry 2 (squareParam PoolMethod.MAX 2 0 2) (blob4 1 1 4 4) []
    rfl rfl rfl rfl (by decide) (by decide) (by decide) (by decide) (by decide) (by decide)
    (by decide) (by decide) (by decide) (by decide)


/-- C3.  With global pooling, pad 0 and stride 1, on an input of height and
width >= 1, `LayerSetUp` returns for every fuel (no loop iteration is
needed): the kernel is the input size, both output extents are 1 and all
four pads are 0. -/
theorem C3_global_pooling_output_one (fuel : Nat) (pp : PoolingParameter) (b : Blob)
    (bs : List Blob)
    (hg : pp.global_pooling = true)
    (hpres : checkFieldPresence pp = Except.ok ())
    (hp0 : padH pp = 0) (hp1 : padW pp = 0)
    (hs0 : strideH pp = 1) (hs1 : strideW pp = 1)
    (hih : 1 ≤ b.height) (hiw : 1 ≤ b.width) :
    LayerSetUp fuel pp (b :: bs)
      = Except.ok { global_pooling_ := true, kernel_h_ := b.height, kernel_w_ := b.width,
                    pad_t_ := 0, pad_b_ := 0, pad_l_ := 0, pad_r_ := 0,
                    stride_h_ := 1, stride_w_ := 1, height_out_ := 1, width_out_ := 1 } := by
  have hkH : kernelH pp b = b.height := by unfold kernelH; rw [if_pos hg]
  have hkW : kernelW pp b = b.width := by unfold kernelW; rw [if_pos hg]
  have hih2 : (0 : Int) < b.height := by exact_mod_cast hih
  have hiw2 : (0 : Int) < b.width := by exact_mod_cast hiw
  have hnp : ¬ (padH pp ≠ 0 ∨ padW pp ≠ 0) := by
    rintro (h | h)
    · exact h hp0
    · exact h hp1
  have hpar : checkParameters pp b = Except.ok () := by
    rw [checkParameters_ok_iff]
    exact ⟨by rw [hkH]; exact hih2, by rw [hkW]; exact hiw2, fun _ => ⟨hp0, hp1, hs0, hs1⟩,
      fun h => absurd h hnp⟩
  -- the numerators of lines 115-118 are 0, whatever the input extent
  have hnum : ∀ i : Int, wrap32 (wrap32 (wrap32 (i + 0) + 0) - i) = 0 := by
    intro i
    unfold wrap32
    omega
  have hvh : ceilDiv (wrap32 (wrap32 (wrap32 ((b.height : Int) + 0) + 0) - b.height)) 1
      = Except.ok 0 := by
    rw [hnum]
    rfl
  have hvw : ceilDiv (wrap32 (wrap32 (wrap32 ((b.width : Int) + 0) + 0) - b.width)) 1
      = Except.ok 0 := by
    rw [hnum]
    rfl
  -- neither loop iterates
  have hloop : ∀ i : Int, ¬ wrap32 (wrap32 (i + 0) + 0)
      < wrap32 (wrap32 (1 * wrap32 (wrap32 (0 + 1) - 1)) + i) := by
    intro i
    unfold wrap32
    omega
  rw [LayerSetUp_cons fuel pp b bs hpres hpar, hkH, hkW, hp0, hp1, hs0, hs1, hg,
    resolveGeometry_unpadded fuel b true _ _ 1 1 0 0 hvh hvw,
    growPad_of_not_lt fuel _ 0 _ (hloop b.height),
    growPad_of_not_lt fuel _ 0 _ (hloop b.width)]
  rfl

/-- C3 (witness).  Global max pooling of a 7 x 5 input, with no fuel. -/
theorem C3_witness_global_7x5 :
    LayerSetUp 0 (globalParam PoolMethod.MAX) (blob4 2 3 7 5 :: [])
      = Except.ok { global_pooling_ := true, kernel_h_ := (blob4 2 3 7 5).height,
                    kernel_w_ := (blob4 2 3 7 5).width,
                    pad_t_ := 0, pad_b_ := 0, pad_l_ := 0, pad_r_ := 0,
                    stride_h_ := 1, stride_w_ := 1, height_out_ := 1, width_out_ := 1 } :=
  C3_global_pooling_output_one 0 (globalParam PoolMethod.MAX) (blob4 2 3 7 5) []
    rfl rfl rfl rfl rfl rfl (by decide) (by decide)


/-- C4 (failing input).  Kernel 1, stride 1, no padding on an input of
height `16777218 = 2 ^ 24 + 2` passes validation, and every `int` value of
lines 115-137 is within range.  The numerator `16777217` of line 115 is
rounded to the float `16777216`, so `LayerSetUp` returns the output height
`16777217` with `pad_b_ = 0` (no loop iteration, whatever the fuel), while
the floor convention gives `16777218`. -/
theorem C4_output_below_floor_convention :
    checkFieldPresence (squareParam PoolMethod.MAX 1 0 1) = Except.ok ()
      ∧ checkParameters (squareParam PoolMethod.MAX 1 0 1) (blob4 1 1 16777218 1) = Except.ok ()
      ∧ ceilDivF32 (16777218 + 0 + 0 - 1) 1 = some 16777216
      ∧ (∀ fuel, LayerSetUp fuel (squareParam PoolMethod.MAX 1 0 1) [blob4 1 1 16777218 1]
          = Except.ok { global_pooling_ := false, kernel_h_ := 1, kernel_w_ := 1,
                        pad_t_ := 0, pad_b_ := 0, pad_l_ := 0, pad_r_ := 0,
                        stride_h_ := 1, stride_w_ := 1,
                        height_out_ := 16777217, width_out_ := 1 })
      ∧ ⌊((16777218 + 0 + 0 - 1 : Int) : ℚ) / ((1 : Int) : ℚ)⌋ + 1 = 16777218 := by
  refine ⟨rfl, rfl, by decide, fun fuel => ?_, ?_⟩
  · have h := LayerSetUp_mono 0 fuel (squareParam PoolMethod.MAX 1 0 1)
      [blob4 1 1 16777218 1] _ rfl
    rw [Nat.zero_add] at h
    exact h
  · rw [floor_div_cast _ _ (by norm_num)]
    decide


/-- C5 (failing input).  Kernel 2 x 3, pad 1 x 2, stride 1 and max pooling
on a 5 x 33554437 input: the field-presence checks pass, the strides are 1
and every invariant holds (kernel > 0, no global pooling, pooling method
Max, pad < kernel on both axes), and every `int` value of lines 115-131 is
within range, yet `LayerSetUp` fails in the `CHECK_LT` of line 130.  The
width numerator `33554438` of line 117 is rounded to the float `33554440`;
after clipping, `33554439 < 33554439` is tested. -/
theorem C5_assertion_fires_on_valid_configuration :
    checkFieldPresence (rectParam PoolMethod.MAX 2 3 1 2 1 1) = Except.ok ()
      ∧ strideH (rectParam PoolMethod.MAX 2 3 1 2 1 1) = 1
      ∧ strideW (rectParam PoolMethod.MAX 2 3 1 2 1 1) = 1
      ∧ 0 < kernelH (rectParam PoolMethod.MAX 2 3 1 2 1 1) (blob4 1 1 5 33554437)
      ∧ 0 < kernelW (rectParam PoolMethod.MAX 2 3 1 2 1 1) (blob4 1 1 5 33554437)
      ∧ (rectParam PoolMethod.MAX 2 3 1 2 1 1).global_pooling = false
      ∧ (rectParam PoolMethod.MAX 2 3 1 2 1 1).pool = PoolMethod.MAX
      ∧ padH (rectParam PoolMethod.MAX 2 3 1 2 1 1)
          < kernelH (rectParam PoolMethod.MAX 2 3 1 2 1 1) (blob4 1 1 5 33554437)
      ∧ padW (rectParam PoolMethod.MAX 2 3 1 2 1 1)
          < kernelW (rectParam PoolMethod.MAX 2 3 1 2 1 1) (blob4 1 1 5 33554437)
      ∧ ceilDivF32 (33554437 + 2 + 2 - 3) 1 = some 33554440
      ∧ ∀ fuel, LayerSetUp fuel (rectParam PoolMethod.MAX 2 3 1 2 1 1) [blob4 1 1 5 33554437]
          = Except.error (Failure.check Check.lastPoolingInsideW) :=
  ⟨rfl, rfl, rfl, by decide, by decide, rfl, rfl, by decide, by decide, by decide,
    fun _ => rfl⟩


/-! ## Claims about primitive construction and execution -/

/-- C6.  `InitPoolingFwd`, called as `Forward_cpu` calls it (no forward
primitive descriptor yet), for single precision and a pooling method with an
algorithm.  Whatever the candidate list and whichever engines accept: if the
list is `pre ++ e :: post`, construction throws on every engine of `pre` and
succeeds on `e`, then the function returns with the descriptor and the
primitive bound to `e`, having tried exactly the engines of `pre` in vain and
then `e`; it fails if and only if every candidate rejects, and then it fails
in the `CHECK` of line 247. -/
theorem C6_forward_engine_selection (B : Backend) (L : Layer) (b : Blob) (bs : List Blob)
    (t : Blob) (ts : List Blob) (alg : Algorithm)
    (halg : poolingAlgorithm L = Except.ok alg)
    (hnull : L.poolingFwd_pd = none) :
    (∀ pre e post, candidateEngines B L = pre ++ e :: post →
        (∀ x ∈ pre, B.fwdAccepts (poolingFwdDesc L alg b) x = false) →
        B.fwdAccepts (poolingFwdDesc L alg b) e = true →
        ∃ L1, InitPoolingFwd Dtype.float B L (b :: bs) (t :: ts) = Except.ok L1
          ∧ L1.poolingFwd_pd = some ⟨poolingFwdDesc L alg b, e⟩
          ∧ L1.poolingFwd.map (fun p => p.pd.engine) = some e
          ∧ L1.trace = L.trace ++ pre.map (fun x => Event.fwd_primitive_desc x false)
              ++ [Event.fwd_primitive_desc e true])
      ∧ ((∃ f L', InitPoolingFwd Dtype.float B L (b :: bs) (t :: ts) = Except.error (f, L'))
          ↔ ∀ x ∈ candidateEngines B L, B.fwdAccepts (poolingFwdDesc L alg b) x = false)
      ∧ ((∀ x ∈ candidateEngines B L, B.fwdAccepts (poolingFwdDesc L alg b) x = false) →
          ∃ L', InitPoolingFwd Dtype.float B L (b :: bs) (t :: ts)
              = Except.error (Failure.check Check.poolingFwdPd, L')
            ∧ L'.poolingFwd_pd = none) := by
  refine ⟨?_, ?_, ?_⟩
  · intro pre e post hep hpre he
    obtain ⟨hfind, htw⟩ := find_of_split (B.fwdAccepts (poolingFwdDesc L alg b)) pre e post hpre he
    rw [← hep] at hfind htw
    refine ⟨_, InitPoolingFwd_selected B L b bs t ts alg e halg hfind, rfl, rfl, ?_⟩
    rw [htw]
    rfl
  · constructor
    · rintro ⟨f, L', herr⟩
      by_contra hcon
      cases hfind : (candidateEngines B L).find? (B.fwdAccepts (poolingFwdDesc L alg b)) with
      | none => exact hcon ((find_none_of_all_reject _ _).1 hfind)
      | some e =>
        rw [InitPoolingFwd_selected B L b bs t ts alg e halg hfind] at herr
        cases herr
    · intro hall
      exact ⟨_, _, InitPoolingFwd_rejected B L b bs (t :: ts) alg halg hnull
        ((find_none_of_all_reject _ _).2 hall)⟩
  · intro hall
    exact ⟨_, InitPoolingFwd_rejected B L b bs (t :: ts) alg halg hnull
      ((find_none_of_all_reject _ _).2 hall), hnull⟩

/-- C6 (witness).  The candidate list `[X, Y]`, `X` rejecting and `Y`
accepting forward construction: the layer ends bound to `Y`, after one vain
attempt on `X`, and no error is raised. -/
theorem C6_witness_X_rejects_Y_accepts :
    candidateEngines backendXY (exampleLayer Phase.TRAIN) = [engineX, engineY]
      ∧ ∃ L1, InitPoolingFwd Dtype.float backendXY (exampleLayer Phase.TRAIN)
            (blob4 1 1 4 4 :: []) (blob4 1 1 2 2 :: []) = Except.ok L1
          ∧ L1.poolingFwd_pd = some ⟨poolingFwdDesc (exampleLayer Phase.TRAIN)
              Algorithm.pooling_max (blob4 1 1 4 4), engineY⟩
          ∧ L1.poolingFwd.map (fun p => p.pd.engine) = some engineY
          ∧ L1.trace = (exampleLayer Phase.TRAIN).trace
              ++ [engineX].map (fun x => Event.fwd_primitive_desc x false)
              ++ [Event.fwd_primitive_desc engineY true] :=
  ⟨rfl, (C6_forward_engine_selection backendXY (exampleLayer Phase.TRAIN) (blob4 1 1 4 4) []
      (blob4 1 1 2 2) [] Algorithm.pooling_max rfl rfl).1 [engineX] engineY [] rfl
        (by decide) rfl⟩

/-- C7.  For element type `double`, `InitPoolingFwd` and `InitPoolingBwd`
fail with NotImplemented for every layer, backend and argument; the layer at
the failure is the layer on entry, so no engine was tried and no descriptor
or primitive was built. -/
theorem C7_double_is_not_implemented (B : Backend) (L : Layer) (bottom top : List Blob)
    (propagate_down : List Bool) :
    InitPoolingFwd Dtype.double B L bottom top = Except.error (Failure.notImplemented, L)
      ∧ InitPoolingBwd Dtype.double B L top propagate_down bottom
          = Except.error (Failure.notImplemented, L) :=
  ⟨rfl, rfl⟩

/-- C8.  `Backward_cpu` with `propagate_down[0]` false returns the layer
unchanged, whatever the layer: no member changes and no call is recorded. -/
theorem C8_backward_without_propagation (D : Dtype) (B : Backend) (L : Layer)
    (top : List Blob) (rest : List Bool) (bottom : List Blob) :
    Backward_cpu D B L top (false :: rest) bottom = Except.ok L :=
  rfl


/-- C9 (counterexample).  Candidates `[X, Y]`; forward construction throws on
`X` and succeeds on `Y`, backward construction succeeds on `X`.  Both
`InitPoolingFwd` and `InitPoolingBwd` return, the forward descriptor is bound
to `Y` and the backward descriptor, built with the forward one as hint, to
`X`. -/
theorem C9_counterexample_engines_differ :
    ∃ L1 L2,
      InitPoolingFwd Dtype.float backendXY (exampleLayer Phase.TRAIN)
          [blob4 1 1 4 4] [blob4 1 1 2 2] = Except.ok L1
        ∧ InitPoolingBwd Dtype.float backendXY L1 [blob4 1 1 2 2] [true] [blob4 1 1 4 4]
            = Except.ok L2
        ∧ L2.poolingFwd_pd.map (fun pd => pd.engine) = some engineY
        ∧ L2.poolingBwd_pd.map (fun pd => pd.engine) = some engineX
        ∧ L2.poolingBwd_pd.map (fun pd => pd.hint_fwd_pd.engine) = some engineY
        ∧ engineX ≠ engineY :=
  ⟨_, _, rfl, rfl, rfl, rfl, rfl, by decide⟩

/-- C9 (amended).  Whenever `InitPoolingFwd` and then `InitPoolingBwd`
return, the backward primitive descriptor carries the forward one as hint
and is bound to the first engine of the candidate list on which backward
construction succeeds, found by a pass of its own over the same list that
forward selection went through; it is the engine of the forward descriptor
when the backend accepts backward construction only on the engine of the
hint, and when the list has a single candidate. -/
theorem C9_backward_engine_is_first_accepting (D : Dtype) (B : Backend) (L : Layer)
    (bottom top : List Blob) (L1 : Layer) (top' : List Blob) (propagate_down : List Bool)
    (bottom' : List Blob) (L2 : Layer)
    (h1 : InitPoolingFwd D B L bottom top = Except.ok L1)
    (h2 : InitPoolingBwd D B L1 top' propagate_down bottom' = Except.ok L2) :
    ∃ fwd_pd bwd_pd, L2.poolingFwd_pd = some fwd_pd ∧ L2.poolingBwd_pd = some bwd_pd
      ∧ bwd_pd.hint_fwd_pd = fwd_pd
      ∧ (∃ pre post, candidateEngines B L = pre ++ fwd_pd.engine :: post
          ∧ (∀ x ∈ pre, B.fwdAccepts fwd_pd.desc x = false)
          ∧ B.fwdAccepts fwd_pd.desc fwd_pd.engine = true)
      ∧ (∃ pre post, candidateEngines B L = pre ++ bwd_pd.engine :: post
          ∧ (∀ x ∈ pre, B.bwdAccepts bwd_pd.desc x fwd_pd = false)
          ∧ B.bwdAccepts bwd_pd.desc bwd_pd.engine fwd_pd = true)
      ∧ ((∀ d x hint, B.bwdAccepts d x hint = true → x = hint.engine) →
          bwd_pd.engine = fwd_pd.engine)
      ∧ ((candidateEngines B L).length = 1 → bwd_pd.engine = fwd_pd.engine) := by
  obtain ⟨alg, b, bs, t, ts, e, -, halg, -, -, hfind, hL1⟩ :=
    InitPoolingFwd_ok_inv D B L bottom top L1 h1
  obtain ⟨alg', t', ts', b', bs', fwd_pd, e', w, -, halg', -, -, hf, hfind', -, hL2⟩ :=
    InitPoolingBwd_ok_inv D B L1 top' propagate_down bottom' L2 h2
  have hep : candidateEngines B L1 = candidateEngines B L := by rw [hL1]; rfl
  have hfpd : fwd_pd = ⟨poolingFwdDesc L alg b, e⟩ := by
    rw [hL1] at hf
    exact (Option.some.inj hf).symm
  rw [hep] at hfind'
  obtain ⟨post, hs1, hs2, hs3⟩ := split_of_find _ _ _ hfind
  obtain ⟨post', hs1', hs2', hs3'⟩ := split_of_find _ _ _ hfind'
  refine ⟨fwd_pd, ⟨poolingBwdDesc L1 alg' t', e', fwd_pd⟩, ?_, ?_, rfl, ?_, ?_, ?_, ?_⟩
  · rw [hL2]; exact hf
  · rw [hL2]; rfl
  · rw [hfpd]
    exact ⟨_, post, hs1, hs2, hs3⟩
  · exact ⟨_, post', hs1', hs2', hs3'⟩
  · intro hB
    exact hB _ _ _ hs3'
  · intro hlen
    rw [hfpd]
    have hmem : e ∈ candidateEngines B L := List.mem_of_find?_eq_some hfind
    have hmem' : e' ∈ candidateEngines B L := List.mem_of_find?_eq_some hfind'
    obtain ⟨a, ha⟩ := List.length_eq_one.1 hlen
    rw [ha] at hmem hmem'
    simp only [List.mem_singleton] at hmem hmem'
    show e' = e
    rw [hmem, hmem']

/-- C9 (witness).  The single candidate `Y`, accepting every construction. -/
theorem C9_witness_single_engine :
    ∃ L1 L2,
      InitPoolingFwd Dtype.float backendY (exampleLayer Phase.TRAIN)
          [blob4 1 1 4 4] [blob4 1 1 2 2] = Except.ok L1
        ∧ InitPoolingBwd Dtype.float backendY L1 [blob4 1 1 2 2] [true] [blob4 1 1 4 4]
            = Except.ok L2
        ∧ ∃ fwd_pd bwd_pd, L2.poolingFwd_pd = some fwd_pd ∧ L2.poolingBwd_pd = some bwd_pd
          ∧ bwd_pd.hint_fwd_pd = fwd_pd
          ∧ (∃ pre post, candidateEngines backendY (exampleLayer Phase.TRAIN)
                = pre ++ fwd_pd.engine :: post
              ∧ (∀ x ∈ pre, backendY.fwdAccepts fwd_pd.desc x = false)
              ∧ backendY.fwdAccepts fwd_pd.desc fwd_pd.engine = true)
          ∧ (∃ pre post, candidateEngines backendY (exampleLayer Phase.TRAIN)
                = pre ++ bwd_pd.engine :: post
              ∧ (∀ x ∈ pre, backendY.bwdAccepts bwd_pd.desc x fwd_pd = false)
              ∧ backendY.bwdAccepts bwd_pd.desc bwd_pd.engine fwd_pd = true)
          ∧ ((∀ d x hint, backendY.bwdAccepts d x hint = true → x = hint.engine) →
              bwd_pd.engine = fwd_pd.engine)
          ∧ ((candidateEngines backendY (exampleLayer Phase.TRAIN)).length = 1 →
              bwd_pd.engine = fwd_pd.engine) :=
  ⟨_, _, rfl, rfl,
    C9_backward_engine_is_first_accepting Dtype.float backendY (exampleLayer Phase.TRAIN)
      [blob4 1 1 4 4] [blob4 1 1 2 2] _ [blob4 1 1 2 2] [true] [blob4 1 1 4 4] _ rfl rfl⟩


/-- On a layer without forward primitive descriptor `Forward_cpu`
returns only when `InitPoolingFwd` does, with the two synchronisations and
the submission recorded after it. -/
theorem Forward_cpu_first_inv (D : Dtype) (B : Backend) (L : Layer) (bottom top : List Blob)
    (L1 : Layer) (hnull : L.poolingFwd_pd = none)
    (h : Forward_cpu D B L bottom top = Except.ok L1) :
    ∃ L0, InitPoolingFwd D B L bottom top = Except.ok L0
      ∧ L1 = ((L0.log (Event.sync_before_read DataRole.fwd_bottom_data)).log
          (Event.sync_before_write DataRole.fwd_top_data)).log
            (Event.submit PrimitiveRef.poolingFwd) := by
  unfold Forward_cpu at h
  simp only [hnull, if_true] at h
  cases hinit : InitPoolingFwd D B L bottom top with
  | error x =>
    rw [hinit] at h
    cases h
  | ok L0 =>
    refine ⟨L0, rfl, ?_⟩
    obtain ⟨alg, b, bs, t, ts, e, -, -, -, -, -, hL0⟩ :=
      InitPoolingFwd_ok_inv D B L bottom top L0 hinit
    rw [hinit, hL0] at h
    rw [hL0]
    exact (Except.ok.inj h).symm

/-- C10 (counterexample).  A max-pooling layer in phase `TEST`, one top
blob, one engine that accepts everything.  `Forward_cpu` initialises the
layer and returns, but since the propagation kind is `forward_scoring` it
binds no mask into the forward primitive and leaves `indices_memory` null;
`InitPoolingBwd` then dereferences the null `indices_memory` at line 407, and
so does `Backward_cpu`. -/
theorem C10_counterexample_test_phase :
    ∃ L1, Forward_cpu Dtype.float backendY (exampleLayer Phase.TEST)
          [blob4 1 1 4 4] [blob4 1 1 2 2] = Except.ok L1
      ∧ L1.indices_memory = none
      ∧ L1.poolingFwd.map (fun p => p.workspace) = some none
      ∧ (∃ L', InitPoolingBwd Dtype.float backendY L1 [blob4 1 1 2 2] [true] [blob4 1 1 4 4]
            = Except.error (Failure.undefinedBehaviour, L')
          ∧ L'.poolingBwd = none)
      ∧ (∃ L', Backward_cpu Dtype.float backendY L1 [blob4 1 1 2 2] [true] [blob4 1 1 4 4]
            = Except.error (Failure.undefinedBehaviour, L')
          ∧ L'.poolingBwd = none) :=
  ⟨_, rfl, rfl, rfl, ⟨_, rfl, rfl⟩, ⟨_, rfl, rfl⟩⟩

/-- C10 (amended).  For max pooling in phase `TRAIN` and any number of top
blobs: once `Forward_cpu` has initialised the layer and returned, the index
mask exists, it wraps `top[1]` when there is more than one top blob and the
layer's own `max_idx_` otherwise, and it is the workspace bound into the
forward primitive.  `InitPoolingBwd`, called on that layer as `Backward_cpu`
calls it with non-empty blob vectors, returns if some candidate accepts
backward construction, and then the workspace of the backward primitive is
that same mask; otherwise it fails in the `CHECK` of line 386.  It never
dereferences a null mask. -/
theorem C10_backward_consumes_forward_mask (B : Backend) (L : Layer) (bottom top : List Blob)
    (L1 : Layer) (t' : Blob) (ts' : List Blob) (propagate_down : List Bool) (b' : Blob)
    (bs' : List Blob)
    (hmax : L.pooling_param.pool = PoolMethod.MAX)
    (htrain : L.phase_ = Phase.TRAIN)
    (hf : L.poolingFwd_pd = none) (hb : L.poolingBwd_pd = none)
    (h1 : Forward_cpu Dtype.float B L bottom top = Except.ok L1) :
    ∃ m fwd_pd, L1.indices_memory = some m
      ∧ m.handle = (if top.length > 1 then BlobRef.top 1 else BlobRef.max_idx)
      ∧ L1.poolingFwd_pd = some fwd_pd
      ∧ L1.poolingFwd.map (fun p => p.workspace) = some (some m)
      ∧ ((∃ x ∈ candidateEngines B L1,
            B.bwdAccepts (poolingBwdDesc L1 Algorithm.pooling_max t') x fwd_pd = true) →
          ∃ L2, InitPoolingBwd Dtype.float B L1 (t' :: ts') propagate_down (b' :: bs')
              = Except.ok L2
            ∧ L2.poolingBwd.map (fun p => p.workspace) = some (some m))
      ∧ ((∀ x ∈ candidateEngines B L1,
            B.bwdAccepts (poolingBwdDesc L1 Algorithm.pooling_max t') x fwd_pd = false) →
          ∃ L', InitPoolingBwd Dtype.float B L1 (t' :: ts') propagate_down (b' :: bs')
              = Except.error (Failure.check Check.poolingBwdPd, L')) := by
  obtain ⟨L0, hinit, hL1⟩ := Forward_cpu_first_inv Dtype.float B L bottom top L1 hf h1
  obtain ⟨alg, b, bs, t, ts, e, -, halg, -, htop, hfind, hL0⟩ :=
    InitPoolingFwd_ok_inv Dtype.float B L bottom top L0 hinit
  have halg0 : poolingAlgorithm L = Except.ok Algorithm.pooling_max := by
    unfold poolingAlgorithm; rw [hmax]; rfl
  have hae : alg = Algorithm.pooling_max := by
    rw [halg0] at halg
    exact (Except.ok.inj halg).symm
  subst hae
  have hprop : propagationOf L = PropKind.forward_training := by
    unfold propagationOf
    rw [htrain]
    rfl
  have hws : propagationOf L = PropKind.forward_training
      ∧ Algorithm.pooling_max ≠ Algorithm.pooling_avg := ⟨hprop, by decide⟩
  -- the mask after the forward initialisation
  have hmask : L0.indices_memory
      = some ⟨B.workspace_primitive_desc ⟨poolingFwdDesc L Algorithm.pooling_max b, e⟩,
          if (t :: ts).length > 1 then BlobRef.top 1 else BlobRef.max_idx⟩ := by
    rw [hL0]
    unfold fwdReady
    simp only [if_pos hws]
    rfl
  have hprim : L0.poolingFwd.map (fun p => p.workspace)
      = some (some ⟨B.workspace_primitive_desc ⟨poolingFwdDesc L Algorithm.pooling_max b, e⟩,
          if (t :: ts).length > 1 then BlobRef.top 1 else BlobRef.max_idx⟩) := by
    rw [hL0]
    unfold fwdReady
    simp only [if_pos hws]
    rfl
  have hpd : L0.poolingFwd_pd = some ⟨poolingFwdDesc L Algorithm.pooling_max b, e⟩ := by
    rw [hL0]; rfl
  have hbwd0 : L0.poolingBwd_pd = none := by
    rw [hL0]; exact hb
  have halg1 : poolingAlgorithm L1 = Except.ok Algorithm.pooling_max := by
    rw [hL1, hL0]
    unfold poolingAlgorithm
    show (match L.pooling_param.pool with
      | PoolMethod.MAX => pure Algorithm.pooling_max
      | PoolMethod.AVE => pure Algorithm.pooling_avg
      | PoolMethod.STOCHASTIC => NOT_IMPLEMENTED _) = _
    rw [hmax]
    rfl
  have hmask1 : L1.indices_memory = L0.indices_memory := by rw [hL1]; rfl
  have hprim1 : L1.poolingFwd = L0.poolingFwd := by rw [hL1]; rfl
  have hpd1 : L1.poolingFwd_pd = L0.poolingFwd_pd := by rw [hL1]; rfl
  have hbwd1 : L1.poolingBwd_pd = none := by rw [hL1]; exact hbwd0
  refine ⟨_, _, hmask1.trans hmask, ?_, hpd1.trans hpd, ?_, ?_, ?_⟩
  · rw [htop]
  · rw [hprim1]; exact hprim
  · rintro ⟨x, hx, hacc⟩
    cases hfind' : (candidateEngines B L1).find?
        (fun x => B.bwdAccepts (poolingBwdDesc L1 Algorithm.pooling_max t') x
          ⟨poolingFwdDesc L Algorithm.pooling_max b, e⟩) with
    | none =>
      have := (find_none_of_all_reject _ _).1 hfind' x hx
      rw [hacc] at this
      cases this
    | some e' =>
      refine ⟨_, InitPoolingBwd_selected B L1 t' ts' propagate_down b' bs' Algorithm.pooling_max
        _ e' _ halg1 (hpd1.trans hpd) hfind'
        (Or.inr ⟨by decide, ?_, hmask1.trans hmask⟩), rfl⟩
      simp
  · intro hall
    exact ⟨_, InitPoolingBwd_rejected B L1 t' ts' propagate_down (b' :: bs')
      Algorithm.pooling_max _ halg1 (hpd1.trans hpd) hbwd1
      ((find_none_of_all_reject _ _).2 hall)⟩

/-- C10 (witness).  A max-pooling layer in phase `TRAIN` with one top blob
and one engine that accepts everything: the mask is the layer's own
`max_idx_` and both initialisations return. -/
theorem C10_witness_train_phase :
    ∃ L1, Forward_cpu Dtype.float backendY (exampleLayer Phase.TRAIN)
          [blob4 1 1 4 4] [blob4 1 1 2 2] = Except.ok L1
      ∧ ∃ m fwd_pd, L1.indices_memory = some m
        ∧ m.handle = (if [blob4 1 1 2 2].length > 1 then BlobRef.top 1 else BlobRef.max_idx)
        ∧ L1.poolingFwd_pd = some fwd_pd
        ∧ L1.poolingFwd.map (fun p => p.workspace) = some (some m)
        ∧ ((∃ x ∈ candidateEngines backendY L1,
              backendY.bwdAccepts (poolingBwdDesc L1 Algorithm.pooling_max (blob4 1 1 2 2)) x
                fwd_pd = true) →
            ∃ L2, InitPoolingBwd Dtype.float backendY L1 (blob4 1 1 2 2 :: []) [true]
                  (blob4 1 1 4 4 :: []) = Except.ok L2
              ∧ L2.poolingBwd.map (fun p => p.workspace) = some (some m))
        ∧ ((∀ x ∈ candidateEngines backendY L1,
              backendY.bwdAccepts (poolingBwdDesc L1 Algorithm.pooling_max (blob4 1 1 2 2)) x
                fwd_pd = false) →
            ∃ L', InitPoolingBwd Dtype.float backendY L1 (blob4 1 1 2 2 :: []) [true]
                  (blob4 1 1 4 4 :: []) = Except.error (Failure.check Check.poolingBwdPd, L')) :=
  ⟨_, rfl,
    C10_backward_consumes_forward_mask backendY (exampleLayer Phase.TRAIN) [blob4 1 1 4 4]
      [blob4 1 1 2 2] _ (blob4 1 1 2 2) [] [true] (blob4 1 1 4 4) [] rfl rfl rfl rfl rfl⟩


/-! ## Claim about the pad growth of `LayerSetUp` -/

/-- C11 (failing input).  Kernel 1, stride 1, no padding on an input of
height `33554439 = 2 ^ 25 + 7` passes every check of setup, and every `int`
value of lines 115-137 is within range, but the numerator `33554438` of line
115 is rounded to the float `33554440`, the output extent is `33554441`, and
the loop of line 134 grows `pad_b_` from 0 to 2 (with one unit of fuel it
cannot finish): the far pad grows by twice the stride. -/
theorem C11_growth_exceeds_stride :
    checkFieldPresence (squareParam PoolMethod.MAX 1 0 1) = Except.ok ()
      ∧ checkParameters (squareParam PoolMethod.MAX 1 0 1) (blob4 1 1 33554439 1) = Except.ok ()
      ∧ kernelH (squareParam PoolMethod.MAX 1 0 1) (blob4 1 1 33554439 1) = 1
      ∧ padH (squareParam PoolMethod.MAX 1 0 1) = 0
      ∧ strideH (squareParam PoolMethod.MAX 1 0 1) = 1
      ∧ strideW (squareParam PoolMethod.MAX 1 0 1) = 1
      ∧ ceilDivF32 (33554439 + 0 + 0 - 1) 1 = some 33554440
      ∧ (∀ fuel, 2 ≤ fuel →
          LayerSetUp fuel (squareParam PoolMethod.MAX 1 0 1) [blob4 1 1 33554439 1]
            = Except.ok { global_pooling_ := false, kernel_h_ := 1, kernel_w_ := 1,
                          pad_t_ := 0, pad_b_ := 2, pad_l_ := 0, pad_r_ := 0,
                          stride_h_ := 1, stride_w_ := 1,
                          height_out_ := 33554441, width_out_ := 1 })
      ∧ LayerSetUp 1 (squareParam PoolMethod.MAX 1 0 1) [blob4 1 1 33554439 1]
          = Except.error Failure.outOfFuel
      ∧ ¬ ((2 : Int) - padH (squareParam PoolMethod.MAX 1 0 1)
            < strideH (squareParam PoolMethod.MAX 1 0 1)) := by
  refine ⟨rfl, rfl, rfl, rfl, rfl, rfl, by decide, fun fuel hfuel => ?_, rfl, by decide⟩
  have h := LayerSetUp_mono 2 (fuel - 2) (squareParam PoolMethod.MAX 1 0 1)
    [blob4 1 1 33554439 1] _ rfl
  have e : 2 + (fuel - 2) = fuel := by omega
  rw [e] at h
  exact h


end MKLDNNPoolingLayer
